import Mathlib

/-!
# Xenia user profile: account container and achievement reconciliation

A shallow embedding of `src/xenia/kernel/xam/user_profile.cc`.

* Bytes are natural numbers, buffers are lists of bytes.
* The crypto helpers of `xenia/kernel/util/crypto_utils.h` (`GetXeKey`,
  `HmacSha`, `RC4`) are not part of this file of the repository; they are
  taken as a parameter (`CryptoUtils`).
* `X_XAMACCOUNTINFO` is declared in the header; the functions only `memcpy`
  it and byte-swap its `gamertag` member in place, so a record is modelled by
  its byte image and the layout facts the code uses are a parameter
  (`AccountLayout`).
-/

namespace Xenia

/-! ## Account container -/

/-- The helpers of `xenia/kernel/util/crypto_utils.h` used by the account
container. `HmacSha key data` stands for the call
`HmacSha(key, key_size, data, data_size, 0, 0, 0, 0, out, 0x14)`, which fills
a 0x14 byte digest; `RC4 key data` stands for
`RC4(key, key_size, data, size, out, size)`, which fills `size` bytes. -/
structure CryptoUtils where
  /-- `GetXeKey(id, devkit)`: the key bytes, or `none` for a null pointer. -/
  GetXeKey : Nat → Bool → Option (List Nat)
  HmacSha : List Nat → List Nat → List Nat
  RC4 : List Nat → List Nat → List Nat
  hmac_size : ∀ key data, (HmacSha key data).length = 0x14
  rc4_size : ∀ key data, (RC4 key data).length = data.length

/-- The facts about `X_XAMACCOUNTINFO` (declared in `user_profile.h`) that the
container code depends on: `sizeof(X_XAMACCOUNTINFO)`, the offset of the
`gamertag` member and `sizeof(wchar_t)`. -/
structure AccountLayout where
  sizeof_acct : Nat
  gamertag_offset : Nat
  wchar_size : Nat
  /-- the offset of the `xuid_online` member -/
  xuid_offset : Nat := 0x28
  deriving Repr, DecidableEq

/-- `xe::copy_and_swap<T>(dest, src, count)` with `dest == src`, on the byte
image of the array: each of the first `count` elements of `w` bytes has its
bytes reversed; the bytes after them are not touched. -/
def copy_and_swap (w : Nat) : Nat → List Nat → List Nat
  | 0, bytes => bytes
  | count + 1, bytes => (bytes.take w).reverse ++ copy_and_swap w count (bytes.drop w)

/-- `xe::copy_and_swap<wchar_t>(acct->gamertag, acct->gamertag, 0x10)` on the
byte image of an account record. -/
def swap_gamertag (lay : AccountLayout) (acct : List Nat) : List Nat :=
  acct.take lay.gamertag_offset ++
    copy_and_swap lay.wchar_size 0x10 (acct.drop lay.gamertag_offset)

/-- `UserProfile::DecryptAccountFile(data, output, devkit)`. The result is the
returned flag together with the contents of `*output` after the call.
`data` must hold `0x10 + sizeof(X_XAMACCOUNTINFO) + 8` bytes. -/
def DecryptAccountFile (cu : CryptoUtils) (lay : AccountLayout)
    (data : List Nat) (output : List Nat) (devkit : Bool) : Bool × List Nat :=
  match cu.GetXeKey 0x19 devkit with
  | none => (false, output)
  | some key =>
    -- Generate RC4 key from data hash
    let rc4_key := cu.HmacSha (key.take 0x10) (data.take 0x10)
    -- Decrypt data
    let dec_data :=
      cu.RC4 (rc4_key.take 0x10) ((data.drop 0x10).take (lay.sizeof_acct + 8))
    -- Verify decrypted data against hash
    let data_hash := cu.HmacSha (key.take 0x10) dec_data
    if data.take 0x10 = data_hash.take 0x10 then
      -- Copy account data to output, swap gamertag endian
      (true, swap_gamertag lay ((dec_data.drop 8).take lay.sizeof_acct))
    else
      (false, output)

/-- `UserProfile::EncryptAccountFile(input, output, devkit)`. The function
returns `void`; the result is the contents of the `output` buffer after the
call. `input` must hold `sizeof(X_XAMACCOUNTINFO)` bytes. -/
def EncryptAccountFile (cu : CryptoUtils) (lay : AccountLayout)
    (input : List Nat) (output : List Nat) (devkit : Bool) : List Nat :=
  match cu.GetXeKey 0x19 devkit with
  | none => output
  | some key =>
    -- the record copied to output + 0x18, gamertag swapped
    let output_acct := swap_gamertag lay (input.take lay.sizeof_acct)
    -- the 8 byte confounder at output + 0x10 followed by the record
    let enc_data := List.replicate 8 0xFD ++ output_acct
    -- Set data hash
    let data_hash := cu.HmacSha (key.take 0x10) enc_data
    -- Generate RC4 key from data hash
    let rc4_key := cu.HmacSha (key.take 0x10) (data_hash.take 0x10)
    -- Encrypt data
    data_hash.take 0x10 ++ cu.RC4 (rc4_key.take 0x10) enc_data ++
      output.drop (0x10 + (lay.sizeof_acct + 8))

/-- A small instance of the crypto helpers, for evaluating the container on
concrete inputs: a 16 byte key for id 0x19 (one per variant), a checksum as
digest and a byte-wise xor as cipher. -/
def demoUtils : CryptoUtils where
  GetXeKey := fun id devkit =>
    if id = 0x19 then some (List.replicate 0x10 (if devkit then 0x5A else 0xA5)) else none
  HmacSha := fun key data => (List.range 0x14).map fun i => (key.sum + data.sum + i) % 256
  RC4 := fun key data => data.map fun b => b ^^^ (key.sum % 256)
  hmac_size := by intro key data; simp
  rc4_size := by intro key data; simp

/-- The crypto helpers of a build whose key table has no entry at all. -/
def noKeyUtils : CryptoUtils where
  GetXeKey := fun _ _ => none
  HmacSha := demoUtils.HmacSha
  RC4 := demoUtils.RC4
  hmac_size := demoUtils.hmac_size
  rc4_size := demoUtils.rc4_size

/-- The layout of `X_XAMACCOUNTINFO` on the platforms the emulator targets:
0x17C bytes, `gamertag` after two 32-bit flag words, 16-bit `wchar_t`,
`xuid_online` right after the gamertag. -/
def xamLayout : AccountLayout :=
  { sizeof_acct := 0x17C, gamertag_offset := 8, wchar_size := 2, xuid_offset := 0x28 }

/-! ## Achievement data

The xdbf containers (`xdbf::GpdFile`, `xdbf::SpaFile`) and their records are
implemented in `xenia/kernel/util/xdbf_utils`, outside this file of the
repository. They are modelled from the specification as typed collections.
-/

/-- A `uint32_t` value: the argument reduced modulo `2 ^ 32`. -/
def u32 (n : Nat) : Nat := n % 2 ^ 32

/-- The id of the dashboard collection, stored in `FFFE07D1.gpd`. -/
def kDashboardID : Nat := 0xFFFE07D1

/-- Modelled from the spec: `xdbf::Achievement`, the AchievementRecord of the
data model (id, label, description, gamerscore value, unlock state, image
reference). `unlocked` is what `IsUnlocked()` returns. -/
structure Achievement where
  id : Nat
  label : List Nat := []
  description : List Nat := []
  gamerscore : Nat := 0
  image_id : Nat := 0
  unlocked : Bool := false
  deriving Repr, DecidableEq

/-- `Achievement::IsUnlocked()`. -/
def Achievement.IsUnlocked (ach : Achievement) : Bool := ach.unlocked

/-- Modelled from the spec: `xdbf::TitlePlayed`, the TitleSummary of the data
model. A default-constructed record has every member zero. -/
structure TitlePlayed where
  title_id : Nat := 0
  title_name : List Nat := []
  achievements_possible : Nat := 0
  achievements_earned : Nat := 0
  gamerscore_total : Nat := 0
  gamerscore_earned : Nat := 0
  last_played : Nat := 0
  deriving Repr, DecidableEq

/-- Modelled from the spec: `xdbf::Entry`, an opaque catalogue entry (image,
string) addressed by section and id. -/
structure Entry where
  info_section : Nat
  info_id : Nat
  data : List Nat
  deriving Repr, DecidableEq

/-- Modelled from the spec: `xdbf::X_XUSER_DATA_TYPE`, the type tag of a
setting value. -/
inductive X_XUSER_DATA_TYPE where
  | kContext
  | kInt32
  | kInt64
  | kDouble
  | kUnicode
  | kFloat
  | kBinary
  | kDateTime
  | kNull
  deriving Repr, DecidableEq

/-- Modelled from the spec: `xdbf::Setting`, an opaque named setting: its id,
the type tag and contents of `value`, and the `extraData` payload. -/
structure Setting where
  id : Nat
  value_type : X_XUSER_DATA_TYPE := X_XUSER_DATA_TYPE.kNull
  value_data : Nat := 0
  extraData : List Nat := []
  deriving Repr, DecidableEq

/-- Replace the first element satisfying `same` by `x`, or append `x` when
there is none: the update discipline of the xdbf entry table. -/
def upsert {α : Type} (same : α → Bool) (x : α) : List α → List α
  | [] => [x]
  | y :: ys => if same y then x :: ys else y :: upsert same x ys

/-- Modelled from the spec: `xdbf::GpdFile`, a collection with typed access to
achievement records, title summaries and opaque entries. `title_id` is the
constructor argument. -/
structure GpdFile where
  title_id : Nat
  achievements : List Achievement := []
  titles : List TitlePlayed := []
  entries : List Entry := []
  settings : List Setting := []
  deriving Repr, DecidableEq

/-- Modelled from the spec: `GpdFile::GetAchievement(id, dest)`; `isSome` of
the result is the returned flag. -/
def GpdFile.GetAchievement (g : GpdFile) (id : Nat) : Option Achievement :=
  g.achievements.find? fun a => a.id == id

/-- Modelled from the spec: `GpdFile::UpdateAchievement(ach)`. -/
def GpdFile.UpdateAchievement (g : GpdFile) (ach : Achievement) : GpdFile :=
  { g with achievements := upsert (fun a => a.id == ach.id) ach g.achievements }

/-- Modelled from the spec: `GpdFile::GetAchievements(&achievements)`. -/
def GpdFile.GetAchievements (g : GpdFile) : List Achievement := g.achievements

/-- Modelled from the spec: `GpdFile::GetTitle(title_id, dest)`. -/
def GpdFile.GetTitle (g : GpdFile) (title_id : Nat) : Option TitlePlayed :=
  g.titles.find? fun t => t.title_id == title_id

/-- Modelled from the spec: `GpdFile::UpdateTitle(title)`. -/
def GpdFile.UpdateTitle (g : GpdFile) (title : TitlePlayed) : GpdFile :=
  { g with titles := upsert (fun t => t.title_id == title.title_id) title g.titles }

/-- Modelled from the spec: `GpdFile::GetTitles(&titles)`. -/
def GpdFile.GetTitles (g : GpdFile) : List TitlePlayed := g.titles

/-- Modelled from the spec: `GpdFile::GetSetting(id, dest)`; `isSome` of the
result is the returned flag. -/
def GpdFile.GetSetting (g : GpdFile) (id : Nat) : Option Setting :=
  g.settings.find? fun x => x.id == id

/-- Modelled from the spec: `GpdFile::UpdateSetting(setting)`: the returned
flag and the collection afterwards. -/
def GpdFile.UpdateSetting (g : GpdFile) (setting : Setting) : Bool × GpdFile :=
  (true, { g with settings := upsert (fun x => x.id == setting.id) setting g.settings })

/-- Modelled from the spec: `XdbfFile::UpdateEntry(entry)`. -/
def GpdFile.UpdateEntry (g : GpdFile) (entry : Entry) : GpdFile :=
  let same := fun (e : Entry) =>
    e.info_section == entry.info_section && e.info_id == entry.info_id
  { g with entries := upsert same entry g.entries }

/-- Modelled from the spec: `xdbf::SpaFile`, a title's declared catalogue.
`achievements` is what `GetAchievements(GetDefaultLocale(), ..)` yields. -/
structure SpaFile where
  title_id : Nat
  title_name : List Nat := []
  achievements : List Achievement := []
  entries : List Entry := []
  deriving Repr, DecidableEq

/-- Modelled from the spec: `SpaFile::GetEntry(section, id)`. -/
def SpaFile.GetEntry (spa : SpaFile) (sect id : Nat) : Option Entry :=
  spa.entries.find? fun e => e.info_section == sect && e.info_id == id

/-- Which object a `GpdFile&` argument of `UpdateGpd` designates. -/
inductive GpdKind where
  | dashboard
  | title
  deriving Repr, DecidableEq

/-- One invocation of `UpdateGpd`. -/
structure GpdUpdate where
  title_id : Nat
  kind : GpdKind
  data : GpdFile
  deriving Repr, DecidableEq

/-- The host side of the profile: the xdbf constants the code names, and the
outcome of the storage operations of `UpdateGpd`, which may depend on how many
updates were attempted before. -/
structure Host where
  /-- `xdbf::SpaSection::kImage` -/
  kImage : Nat
  /-- `xdbf::GpdSection::kString` -/
  kString : Nat
  /-- `xdbf::SpaID::Title` -/
  kSpaTitle : Nat
  /-- `gpd_data.Write(nullptr, &gpd_length)` succeeds -/
  size_ok : Nat → GpdFile → Bool
  /-- `MappedMemory::Open(.., kReadWrite, 0, gpd_length)` succeeds -/
  open_ok : Nat → Nat → Bool
  /-- `gpd_data.Write(mmap_->data(), &gpd_length)` succeeds -/
  write_ok : Nat → GpdFile → Bool

/-- The members of `UserProfile`. `title_gpds_` is the map from title id to
collection; `curr_gpd_` is null or points at the element of `title_gpds_` with
the given key. `updates` and `files` record the effects on storage: every
invocation of `UpdateGpd` in order, and every file written (latest first). -/
structure UserProfile where
  account_ : List Nat
  dash_gpd_ : GpdFile
  title_gpds_ : List (Nat × GpdFile) := []
  curr_gpd_ : Option Nat := none
  curr_title_id_ : Nat := 0xFFFFFFFF
  updates : List GpdUpdate := []
  files : List (Nat × GpdFile) := []
  deriving Repr, DecidableEq

/-- `title_gpds_.find(title_id)`. -/
def findGpd (m : List (Nat × GpdFile)) (title_id : Nat) : Option GpdFile :=
  (m.find? fun p => p.1 == title_id).map Prod.snd

/-- `title_gpds_[title_id] = gpd`. -/
def storeGpd (m : List (Nat × GpdFile)) (title_id : Nat) (gpd : GpdFile) :
    List (Nat × GpdFile) :=
  upsert (fun p => p.1 == title_id) (title_id, gpd) m

/-- The four counters `UpdateGpd` derives from a collection. -/
structure Tally where
  num_ach_total : Nat := 0
  num_ach_earned : Nat := 0
  gamerscore_total : Nat := 0
  gamerscore_earned : Nat := 0
  deriving Repr, DecidableEq

/-- One iteration of the counting loop of `UpdateGpd`. -/
def tallyStep (t : Tally) (ach : Achievement) : Tally :=
  let t := { t with num_ach_total := u32 (t.num_ach_total + 1),
                    gamerscore_total := u32 (t.gamerscore_total + ach.gamerscore) }
  if ach.IsUnlocked then
    { t with num_ach_earned := u32 (t.num_ach_earned + 1),
             gamerscore_earned := u32 (t.gamerscore_earned + ach.gamerscore) }
  else t

/-- The counting loop of `UpdateGpd` over `gpd_achievements`. -/
def tally (achs : List Achievement) : Tally := achs.foldl tallyStep {}

/-- The storage part of `UpdateGpd(title_id, gpd_data)`: size query, open,
write. The flag is `ret_val`: it is set when both `Write` calls and the open
succeeded. -/
def writeGpd (host : Host) (s : UserProfile) (title_id : Nat) (kind : GpdKind)
    (gpd_data : GpdFile) : Bool × UserProfile :=
  let n := s.updates.length
  let s := { s with updates := s.updates ++ [⟨title_id, kind, gpd_data⟩] }
  if !host.size_ok n gpd_data then (false, s)
  else if !host.open_ok n title_id then (false, s)
  else if !host.write_ok n gpd_data then (false, s)
  else (true, { s with files := (title_id, gpd_data) :: s.files })

/-- The dashboard part of `UpdateGpd(title_id, gpd_data)`, entered after a
successful write. The nested call `UpdateGpd(kDashboardID, dash_gpd_)` has the
dashboard id, so it consists of its storage part only. -/
def syncDashboard (host : Host) (s : UserProfile) (title_id : Nat) (gpd_data : GpdFile) :
    UserProfile :=
  -- Check if we need to update dashboard data...
  if title_id != kDashboardID then
    match s.dash_gpd_.GetTitle title_id with
    | some title_info =>
      let t := tally gpd_data.GetAchievements
      -- Only update dash GPD if something has changed
      if t.num_ach_total != title_info.achievements_possible ||
          t.num_ach_earned != title_info.achievements_earned ||
          t.gamerscore_total != title_info.gamerscore_total ||
          t.gamerscore_earned != title_info.gamerscore_earned then
        let title_info := { title_info with
          achievements_possible := t.num_ach_total,
          achievements_earned := t.num_ach_earned,
          gamerscore_total := t.gamerscore_total,
          gamerscore_earned := t.gamerscore_earned }
        let s := { s with dash_gpd_ := s.dash_gpd_.UpdateTitle title_info }
        (writeGpd host s kDashboardID GpdKind.dashboard s.dash_gpd_).2
      else s
    | none => s
  else s

/-- `UserProfile::UpdateGpd(title_id, gpd_data)`: the returned flag and the
profile afterwards. `kind` tells which object `gpd_data` refers to. -/
def UpdateGpd (host : Host) (s : UserProfile) (title_id : Nat) (kind : GpdKind)
    (gpd_data : GpdFile) : Bool × UserProfile :=
  let w := writeGpd host s title_id kind gpd_data
  if w.1 then (true, syncDashboard host w.2 title_id gpd_data) else (false, w.2)

/-- The state of the catalogue-growth loop of `SetTitleSpaData`. -/
structure Merge where
  title_info : TitlePlayed
  title_gpd : GpdFile
  ach_updated : Bool
  deriving Repr, DecidableEq

/-- One iteration of the loop over `spa_achievements` for a title whose
collection exists. -/
def mergeStep (always_update_title : Bool) (m : Merge) (ach : Achievement) : Merge :=
  let ach_exists := (m.title_gpd.GetAchievement ach.id).isSome
  if ach_exists && !always_update_title then m
  else
    -- Achievement doesn't exist in current title info, lets add it
    let title_info := { m.title_info with
      achievements_possible := u32 (m.title_info.achievements_possible + 1),
      gamerscore_total := u32 (m.title_info.gamerscore_total + ach.gamerscore) }
    -- If it doesn't exist in GPD, add it to that too
    if !ach_exists then
      { title_info := title_info, title_gpd := m.title_gpd.UpdateAchievement ach,
        ach_updated := true }
    else { m with title_info := title_info }

/-- One iteration of the copy loop for a new title. -/
def createStep (m : TitlePlayed × GpdFile) (ach : Achievement) : TitlePlayed × GpdFile :=
  ({ m.1 with achievements_possible := u32 (m.1.achievements_possible + 1),
              gamerscore_total := u32 (m.1.gamerscore_total + ach.gamerscore) },
   m.2.UpdateAchievement ach)

/-- The image copy loop for a new title. -/
def copyImage (host : Host) (spa_data : SpaFile) (g : GpdFile) (ach : Achievement) : GpdFile :=
  match spa_data.GetEntry host.kImage ach.image_id with
  | some image_entry => g.UpdateEntry image_entry
  | none => g

/-- The data of the title name entry: the name in big-endian 16-bit units
followed by a zero terminator. -/
def titleNameData (title_name : List Nat) : List Nat :=
  (title_name.map fun c => [c / 256 % 256, c % 256]).flatten ++ [0, 0]

/-- `UserProfile::SetTitleSpaData(spa_data)`, with `now` the value of
`Clock::QueryHostSystemTime()`. The returned pointer is `curr_gpd_` of the
resulting profile. -/
def SetTitleSpaData (host : Host) (s : UserProfile) (spa_data : SpaFile) (now : Nat) :
    UserProfile :=
  let spa_title := spa_data.title_id
  let spa_achievements := spa_data.achievements
  let s :=
    match findGpd s.title_gpds_ spa_title with
    | some title_gpd =>
      let found := s.dash_gpd_.GetTitle spa_title
      let always_update_title := found.isNone
      let title_info : TitlePlayed :=
        match found with
        | some title_info => title_info
        | none =>
          -- assert_always() stops a debug build here; a release build logs and goes on:
          -- Try to work around it...
          { title_name := spa_data.title_name, title_id := spa_title,
            achievements_possible := 0, achievements_earned := 0,
            gamerscore_total := 0, gamerscore_earned := 0 }
      let title_info := { title_info with last_played := now }
      -- Check SPA for any achievements current GPD might be missing
      let m := spa_achievements.foldl (mergeStep always_update_title)
        { title_info := title_info, title_gpd := title_gpd, ach_updated := false }
      -- Update dash with new title_info
      let s := { s with title_gpds_ := storeGpd s.title_gpds_ spa_title m.title_gpd,
                        dash_gpd_ := s.dash_gpd_.UpdateTitle m.title_info }
      -- Only write game GPD if achievements were updated
      let s := if m.ach_updated then
          (UpdateGpd host s spa_title GpdKind.title m.title_gpd).2 else s
      (UpdateGpd host s kDashboardID GpdKind.dashboard s.dash_gpd_).2
    | none =>
      -- GPD not found... have to create it!
      let title_info : TitlePlayed :=
        { title_name := spa_data.title_name, title_id := spa_title, last_played := now }
      -- Copy cheevos from SPA -> GPD
      let m := spa_achievements.foldl createStep (title_info, { title_id := spa_title })
      let title_info := m.1
      -- Try copying achievement images if we can...
      let title_gpd := spa_achievements.foldl (copyImage host spa_data) m.2
      -- Try adding title image & name
      let title_gpd :=
        match spa_data.GetEntry host.kImage host.kSpaTitle with
        | some title_image => title_gpd.UpdateEntry title_image
        | none => title_gpd
      let title_gpd :=
        if spa_data.title_name.length != 0 then
          title_gpd.UpdateEntry
            { info_section := host.kString, info_id := host.kSpaTitle,
              data := titleNameData spa_data.title_name }
        else title_gpd
      let s := { s with title_gpds_ := storeGpd s.title_gpds_ spa_title title_gpd,
                        dash_gpd_ := s.dash_gpd_.UpdateTitle title_info }
      -- Update dash GPD with title and write updated GPDs
      let s := (UpdateGpd host s spa_title GpdKind.title title_gpd).2
      (UpdateGpd host s kDashboardID GpdKind.dashboard s.dash_gpd_).2
  { s with curr_gpd_ := some spa_title, curr_title_id_ := spa_title }

/-- A host on which every storage operation succeeds. -/
def okHost : Host :=
  { kImage := 2, kString := 5, kSpaTitle := 0x8000,
    size_ok := fun _ _ => true, open_ok := fun _ _ => true, write_ok := fun _ _ => true }

/-- A host on which no file can be opened for writing. -/
def readOnlyHost : Host := { okHost with open_ok := fun _ _ => false }

/-- A profile with no titles and a blank dashboard collection. -/
def blankProfile : UserProfile :=
  { account_ := [], dash_gpd_ := { title_id := kDashboardID } }

/-! ## Lookup, explicit persistence, settings -/

/-- `UserProfile::GetTitleGpd(title_id)`: the returned pointer, null (`none`)
or the key of the element of `title_gpds_` it points at. The test
`title_id == -1` on a `uint32_t` compares with `0xFFFFFFFF`. -/
def GetTitleGpd (s : UserProfile) (title_id : Nat) : Option Nat :=
  if title_id = 0xFFFFFFFF then s.curr_gpd_
  else
    match findGpd s.title_gpds_ title_id with
    | none => none
    | some _ => some title_id

/-- The collection a pointer into `title_gpds_` designates; `none` for a null
pointer. -/
def UserProfile.deref (s : UserProfile) (p : Option Nat) : Option GpdFile :=
  p.bind fun key => findGpd s.title_gpds_ key

/-- The call `UpdateGpd(title_id, *curr_gpd_)` of `UpdateTitleGpd`; `none` when
`curr_gpd_` is null, so that there is nothing to dereference. -/
def updateFromCurrent (host : Host) (s : UserProfile) (title_id : Nat) :
    Option (Bool × UserProfile) :=
  match s.deref s.curr_gpd_ with
  | none => none
  | some curr => some (UpdateGpd host s title_id GpdKind.title curr)

/-- `UserProfile::UpdateTitleGpd(title_id)`: the returned flag and the profile
afterwards; `none` when the call dereferences a null `curr_gpd_`. -/
def UpdateTitleGpd (host : Host) (s : UserProfile) (title_id : Nat) :
    Option (Bool × UserProfile) :=
  if title_id = 0xFFFFFFFF then
    if s.curr_gpd_ = none ∨ s.curr_title_id_ = 0xFFFFFFFF then some (false, s)
    else updateFromCurrent host s s.curr_title_id_
  else updateFromCurrent host s title_id

/-- `UserProfile::AddSettingIfNotExist(setting)`: the returned flag, the
profile afterwards and the contents of `setting` afterwards (it is passed by
reference). `XPROFILEID_SIZE` is the macro of that name; `resize` of an empty
vector fills it with zero bytes. -/
def AddSettingIfNotExist (XPROFILEID_SIZE : Nat → Nat) (s : UserProfile) (setting : Setting) :
    Bool × UserProfile × Setting :=
  if (s.dash_gpd_.GetSetting setting.id).isSome then (false, s, setting)
  else
    let setting :=
      if setting.value_type = X_XUSER_DATA_TYPE.kBinary ∧ setting.extraData.length = 0 then
        { setting with extraData := List.replicate (XPROFILEID_SIZE setting.id) 0 }
      else setting
    let r := s.dash_gpd_.UpdateSetting setting
    (r.1, { s with dash_gpd_ := r.2 }, setting)

/-! ## Loading -/

/-- The profile directory as the loader sees it: the contents of the
`Account` file and of the file `%X.gpd` of each id when they can be opened for
reading, and the outcome of `GpdFile::Read(data, size)` on an object: the
returned flag and the object afterwards. -/
structure Disk where
  account_file : Option (List Nat)
  gpd_file : Nat → Option (List Nat)
  gpd_read : GpdFile → List Nat → Bool × GpdFile

/-- One iteration of the loop of `LoadProfile` over the titles of the
dashboard collection. -/
def loadTitle (disk : Disk) (s : UserProfile) (title : TitlePlayed) : UserProfile :=
  match disk.gpd_file title.title_id with
  | none => s
  | some data =>
    let r := disk.gpd_read { title_id := title.title_id } data
    if r.1 then { s with title_gpds_ := storeGpd s.title_gpds_ title.title_id r.2 }
    else s

/-- The first part of `LoadProfile` (lines 112-133): the account file.
`tmp_acct` is the initial content of the local record of that name; the first
call of `DecryptAccountFile` leaves out the `devkit` argument, which the
declaration defaults to `false`. -/
def loadAccount (cu : CryptoUtils) (lay : AccountLayout) (disk : Disk) (tmp_acct : List Nat)
    (s : UserProfile) : UserProfile :=
  match disk.account_file with
  | some data =>
    let r := DecryptAccountFile cu lay data tmp_acct false
    let r := if !r.1 then DecryptAccountFile cu lay data r.2 true else r
    if !r.1 then s else { s with account_ := r.2 }
  | none => s

/-- The second part of `LoadProfile` (lines 135-177): the dashboard
collection and the collections of the titles it lists. -/
def loadGpds (disk : Disk) (s : UserProfile) : UserProfile :=
  match disk.gpd_file kDashboardID with
  | none => s
  | some data =>
    let s := { s with dash_gpd_ := (disk.gpd_read s.dash_gpd_ data).2 }
    s.dash_gpd_.GetTitles.foldl (loadTitle disk) s

/-- `UserProfile::LoadProfile()`. -/
def LoadProfile (cu : CryptoUtils) (lay : AccountLayout) (disk : Disk) (tmp_acct : List Nat)
    (s : UserProfile) : UserProfile :=
  loadGpds disk (loadAccount cu lay disk tmp_acct s)

/-- The bytes of a value in little-endian order, `w` bytes. -/
def bytesLE : Nat → Nat → List Nat
  | 0, _ => []
  | w + 1, v => v % 256 :: bytesLE w (v / 256)

/-- The value of a little-endian byte sequence. -/
def valueLE (bytes : List Nat) : Nat := bytes.foldr (fun b acc => b + 256 * acc) 0

/-- A store of `bytes` at offset `off` of a buffer. -/
def writeAt (off : Nat) (bytes buf : List Nat) : List Nat :=
  buf.take off ++ bytes ++ buf.drop (off + bytes.length)

/-- The wide string `L"XeniaUser"`. -/
def kXeniaUser : List Nat := [0x58, 0x65, 0x6E, 0x69, 0x61, 0x55, 0x73, 0x65, 0x72]

/-- The record the constructor prepares in `account_`, whose prior content is
`raw`: `xuid_online = 0xE000BABEBABEBABE` (a big-endian 64-bit member) and
`wcscpy(gamertag, L"XeniaUser")` (host order is little-endian). -/
def placeholderAccount (lay : AccountLayout) (raw : List Nat) : List Nat :=
  writeAt lay.gamertag_offset
    ((kXeniaUser ++ [0]).map (bytesLE lay.wchar_size)).flatten
    (writeAt lay.xuid_offset (bytesLE 8 0xE000BABEBABEBABE).reverse raw)

/-- The member `xuid_online` of an account record. -/
def xuid_online (lay : AccountLayout) (acct : List Nat) : Nat :=
  valueLE ((acct.drop lay.xuid_offset).take 8).reverse

/-- The first `count` elements of an array of `w` byte little-endian values. -/
def wchars (w : Nat) : Nat → List Nat → List Nat
  | 0, _ => []
  | count + 1, bytes => valueLE (bytes.take w) :: wchars w count (bytes.drop w)

/-- `X_XAMACCOUNTINFO::GetGamertagString()`: `std::wstring(gamertag)` reads
elements from the start of `gamertag` up to the first zero element. The scan
is not bounded by the array: without a terminator inside it, it runs on
through the members that follow. Reading past the end of the record is out of
bounds; the model stops at the last whole element of the record. -/
def GetGamertagString (lay : AccountLayout) (acct : List Nat) : List Nat :=
  (wchars lay.wchar_size ((acct.length - lay.gamertag_offset) / lay.wchar_size)
    (acct.drop lay.gamertag_offset)).takeWhile fun c => c != 0

/-- `UserProfile::UserProfile()`: `dash_gpd_(kDashboardID)`, the placeholder
account, then `LoadProfile()`. `raw` is the prior content of `account_`. -/
def UserProfile_ctor (cu : CryptoUtils) (lay : AccountLayout) (disk : Disk)
    (raw tmp_acct : List Nat) : UserProfile :=
  LoadProfile cu lay disk tmp_acct
    { account_ := placeholderAccount lay raw, dash_gpd_ := { title_id := kDashboardID } }

/-! ## Derived notions used in the statements and proofs -/

/-- A summary with its four counters replaced by the ones of a tally, as in the
assignment block of `UpdateGpd`. -/
def withTally (title_info : TitlePlayed) (t : Tally) : TitlePlayed :=
  { title_info with
    achievements_possible := t.num_ach_total,
    achievements_earned := t.num_ach_earned,
    gamerscore_total := t.gamerscore_total,
    gamerscore_earned := t.gamerscore_earned }

/-- The dashboard collection after the dashboard part of
`UpdateGpd(title_id, gpd_data)` has run on dashboard collection `d`. -/
def syncedDash (d : GpdFile) (title_id : Nat) (gpd_data : GpdFile) : GpdFile :=
  if title_id = kDashboardID then d
  else
    match d.GetTitle title_id with
    | some title_info => d.UpdateTitle (withTally title_info (tally gpd_data.achievements))
    | none => d

/-- The declared achievements that the catalogue-growth loop appends to a
collection holding `present`: those whose id is neither in `present` nor
declared earlier in the list. -/
def fresh (present : List Achievement) : List Achievement → List Achievement
  | [] => []
  | a :: rest =>
    if (present.find? fun x => x.id == a.id).isSome then fresh present rest
    else a :: fresh (present ++ [a]) rest

/-- The summary, the collection and the title write flag that
`SetTitleSpaData` has computed when it reaches its `UpdateGpd` calls. -/
def reconciled (host : Host) (s : UserProfile) (spa_data : SpaFile) (now : Nat) :
    TitlePlayed × GpdFile × Bool :=
  match findGpd s.title_gpds_ spa_data.title_id with
  | some title_gpd =>
    let found := s.dash_gpd_.GetTitle spa_data.title_id
    let title_info : TitlePlayed :=
      match found with
      | some title_info => title_info
      | none =>
        { title_name := spa_data.title_name, title_id := spa_data.title_id,
          achievements_possible := 0, achievements_earned := 0,
          gamerscore_total := 0, gamerscore_earned := 0 }
    let m := spa_data.achievements.foldl (mergeStep found.isNone)
      { title_info := { title_info with last_played := now }, title_gpd := title_gpd,
        ach_updated := false }
    (m.title_info, m.title_gpd, m.ach_updated)
  | none =>
    let m := spa_data.achievements.foldl createStep
      ({ title_name := spa_data.title_name, title_id := spa_data.title_id, last_played := now },
       { title_id := spa_data.title_id })
    let title_gpd := spa_data.achievements.foldl (copyImage host spa_data) m.2
    let title_gpd :=
      match spa_data.GetEntry host.kImage host.kSpaTitle with
      | some title_image => title_gpd.UpdateEntry title_image
      | none => title_gpd
    let title_gpd :=
      if spa_data.title_name.length != 0 then
        title_gpd.UpdateEntry
          { info_section := host.kString, info_id := host.kSpaTitle,
            data := titleNameData spa_data.title_name }
      else title_gpd
    (m.1, title_gpd, true)

/-- The sum of the gamerscore values of a list of achievements. -/
def gamerscoreSum (achs : List Achievement) : Nat := (achs.map fun a => a.gamerscore).sum

/-- Every summary of a dashboard collection has its earned counters bounded
by the possible ones. -/
def SummaryBound (d : GpdFile) : Prop :=
  ∀ ti ∈ d.titles, ti.achievements_earned ≤ ti.achievements_possible ∧
    ti.gamerscore_earned ≤ ti.gamerscore_total

instance (d : GpdFile) : Decidable (SummaryBound d) := by
  unfold SummaryBound; infer_instance

/-! ## Concrete scenarios -/

/-- A catalogue declaring achievement 1 (10 G) and achievement 2 (20 G) for
title 0x1234. -/
def spaTwo : SpaFile :=
  { title_id := 0x1234,
    achievements := [{ id := 1, gamerscore := 10 }, { id := 2, gamerscore := 20 }] }

/-- A catalogue declaring achievement 1 (10 G) and achievement 2 (5 G) for
title 0x1234, both locked. -/
def spaGrow : SpaFile :=
  { title_id := 0x1234,
    achievements := [{ id := 1, gamerscore := 10 }, { id := 2, gamerscore := 5 }] }

/-- The collection of title 0x1234 holding achievement 1 only, unlocked. -/
def gpdOne : GpdFile :=
  { title_id := 0x1234, achievements := [{ id := 1, gamerscore := 10, unlocked := true }] }

/-- The summary that matches `gpdOne`. -/
def summaryOne : TitlePlayed :=
  { title_id := 0x1234, achievements_possible := 1, achievements_earned := 1,
    gamerscore_total := 10, gamerscore_earned := 10, last_played := 3 }

/-- A profile that has played title 0x1234: collection `gpdOne`, summary
`summaryOne`. -/
def playedProfile : UserProfile :=
  { account_ := [],
    dash_gpd_ := { title_id := kDashboardID, titles := [summaryOne] },
    title_gpds_ := [(0x1234, gpdOne)] }

/-- A catalogue whose single achievement carries the unlocked state. -/
def spaUnlocked : SpaFile :=
  { title_id := 0x1234, achievements := [{ id := 1, gamerscore := 10, unlocked := true }] }

/-- A summary for title 0x1234 (5 possible, 100 G) that does not match the
collection `gpdOne` (1 achievement, 10 G). -/
def skewedSummary : TitlePlayed :=
  { title_id := 0x1234, achievements_possible := 5, achievements_earned := 1,
    gamerscore_total := 100, gamerscore_earned := 10 }

/-- A profile whose title 0x1234 has collection `gpdOne` and summary
`skewedSummary`. -/
def skewedProfile : UserProfile :=
  { account_ := [],
    dash_gpd_ := { title_id := kDashboardID, titles := [skewedSummary] },
    title_gpds_ := [(0x1234, gpdOne)] }

/-- A profile as `LoadProfile` leaves it when the dashboard lists title 0x1234
with one earned achievement but the per-title file was skipped. -/
def orphanProfile : UserProfile :=
  { account_ := [], dash_gpd_ := { title_id := kDashboardID, titles := [summaryOne] } }

/-- A collection whose gamerscore values add up to `2 ^ 32`. -/
def overflowGpd : GpdFile :=
  { title_id := 0x1234,
    achievements := [{ id := 1, gamerscore := 0xFFFFFFFF, unlocked := true },
                     { id := 2, gamerscore := 1 }] }

/-- A collection with one unlocked achievement worth `2 ^ 32 - 1`. -/
def richGpd : GpdFile :=
  { title_id := 0x1234,
    achievements := [{ id := 1, gamerscore := 0xFFFFFFFF, unlocked := true }] }

/-- The summary that matches `richGpd`. -/
def richSummary : TitlePlayed :=
  { title_id := 0x1234, achievements_possible := 1, achievements_earned := 1,
    gamerscore_total := 0xFFFFFFFF, gamerscore_earned := 0xFFFFFFFF }

/-- A profile whose title 0x1234 has collection `richGpd` and the matching
summary. -/
def richProfile : UserProfile :=
  { account_ := [],
    dash_gpd_ := { title_id := kDashboardID, titles := [richSummary] },
    title_gpds_ := [(0x1234, richGpd)] }

/-- A collection for title 0x5678 with one locked achievement. -/
def gpdOther : GpdFile :=
  { title_id := 0x5678, achievements := [{ id := 9, gamerscore := 50 }] }

/-- A profile holding collections for titles 0x1234 and 0x5678, the former
being the active title. -/
def twoTitleProfile : UserProfile :=
  { account_ := [],
    dash_gpd_ := { title_id := kDashboardID, titles := [summaryOne] },
    title_gpds_ := [(0x1234, gpdOne), (0x5678, gpdOther)],
    curr_gpd_ := some 0x1234,
    curr_title_id_ := 0x1234 }

/-- A profile whose title 0x1234 has the collection `gpdOne` but no summary in
the dashboard collection. -/
def unlistedProfile : UserProfile :=
  { account_ := [],
    dash_gpd_ := { title_id := kDashboardID },
    title_gpds_ := [(0x1234, gpdOne)] }

/-- The summary `SetTitleSpaData` synthesizes from a catalogue when the
dashboard lacks one: title id and name of the catalogue, every declared
achievement counted, nothing earned. -/
def synthesizedSummary (spa : SpaFile) (now : Nat) : TitlePlayed :=
  { title_id := spa.title_id,
    title_name := spa.title_name,
    achievements_possible := u32 spa.achievements.length,
    achievements_earned := 0,
    gamerscore_total := u32 (gamerscoreSum spa.achievements),
    gamerscore_earned := 0,
    last_played := now }

/-- A stand-in for the `XPROFILEID_SIZE` macro: the size field in bits 16..27
of a setting id. -/
def demoProfileIdSize (id : Nat) : Nat := id / 2 ^ 16 % 2 ^ 12

/-- A binary setting of declared width 8 supplied without payload. -/
def binarySetting : Setting :=
  { id := 0x60080001, value_type := X_XUSER_DATA_TYPE.kBinary }

/-- What loading the file of title `t` yields: the parsed collection when the
file opens and `Read` succeeds on a fresh object for `t`. -/
def loadedGpd (disk : Disk) (t : Nat) : Option GpdFile :=
  match disk.gpd_file t with
  | none => none
  | some data =>
    if (disk.gpd_read { title_id := t } data).1 then
      some (disk.gpd_read { title_id := t } data).2
    else none

/-- The dashboard collection stored on `demoDisk`: it lists titles 1, 2, 3. -/
def demoDash : GpdFile :=
  { title_id := kDashboardID,
    titles := [{ title_id := 1 }, { title_id := 2 }, { title_id := 3 }] }

/-- A profile directory without account file whose dashboard lists titles 1,
2 and 3; the file of title 2 is corrupted (its `Read` fails), the files of
titles 1 and 3 parse to a collection with one achievement. -/
def demoDisk : Disk :=
  { account_file := none,
    gpd_file := fun id => if id = kDashboardID ∨ id = 1 ∨ id = 2 ∨ id = 3 then some [id] else none,
    gpd_read := fun g data =>
      if g.title_id = kDashboardID then (true, demoDash)
      else if data = [2] then (false, g)
      else (true, { g with achievements := [{ id := 1, gamerscore := 10 }] }) }

/-- A profile directory whose account file was sealed with the devkit key of
the demo helpers for the all-zero record, and without dashboard file. -/
def devkitDisk : Disk :=
  { account_file :=
      some (EncryptAccountFile demoUtils xamLayout (List.replicate 0x17C 0) [] true),
    gpd_file := fun _ => none,
    gpd_read := fun g _ => (false, g) }

/-- An account record whose byte `k` is `k mod 256`, so that its gamertag
bytes are pairwise different. -/
def demoAccount : List Nat := (List.range 0x17C).map fun k => k % 256

/-- A catalogue for title 0x1234 whose gamerscore values add up to `2 ^ 32`. -/
def spaOverflow : SpaFile :=
  { title_id := 0x1234,
    achievements := [{ id := 1, gamerscore := 0xFFFFFFFF }, { id := 2, gamerscore := 1 }] }

/-! ### Lemmas on the byte swap -/

theorem copy_and_swap_nil (w count : Nat) : copy_and_swap w count [] = [] := by
  induction count with
  | zero => rfl
  | succ n ih => simp [copy_and_swap, ih]

theorem copy_and_swap_length (w count : Nat) (bytes : List Nat) :
    (copy_and_swap w count bytes).length = bytes.length := by
  induction count generalizing bytes with
  | zero => rfl
  | succ n ih =>
    simp only [copy_and_swap, List.length_append, List.length_reverse, List.length_take, ih,
      List.length_drop]
    omega

theorem copy_and_swap_involutive (w count : Nat) (bytes : List Nat) :
    copy_and_swap w count (copy_and_swap w count bytes) = bytes := by
  induction count generalizing bytes with
  | zero => rfl
  | succ n ih =>
    simp only [copy_and_swap]
    by_cases hw : w ≤ bytes.length
    · have hlen : ((bytes.take w).reverse).length = w := by
        simp [List.length_take, hw]
      rw [List.take_append_of_le_length (by omega), List.drop_append_of_le_length (by omega)]
      rw [List.take_of_length_le (by omega), List.drop_of_length_le (by omega)]
      simp [ih]
    · have hdrop : bytes.drop w = [] := List.drop_of_length_le (by omega)
      have htake : bytes.take w = bytes := List.take_of_length_le (by omega)
      rw [hdrop, htake, copy_and_swap_nil, List.append_nil]
      have hlen : bytes.reverse.length ≤ w := by simp; omega
      rw [List.take_of_length_le hlen, List.drop_of_length_le hlen, copy_and_swap_nil]
      simp

theorem swap_gamertag_length (lay : AccountLayout) (acct : List Nat) :
    (swap_gamertag lay acct).length = acct.length := by
  simp only [swap_gamertag, List.length_append, List.length_take, copy_and_swap_length,
    List.length_drop]
  omega

theorem swap_gamertag_involutive (lay : AccountLayout) (acct : List Nat) :
    swap_gamertag lay (swap_gamertag lay acct) = acct := by
  unfold swap_gamertag
  by_cases h : lay.gamertag_offset ≤ acct.length
  · have hlen : (acct.take lay.gamertag_offset).length = lay.gamertag_offset := by
      simp [List.length_take, h]
    rw [List.take_append_of_le_length (by omega), List.drop_append_of_le_length (by omega)]
    rw [List.take_of_length_le (by omega), List.drop_of_length_le (by omega)]
    simp [copy_and_swap_involutive]
  · have hdrop : acct.drop lay.gamertag_offset = [] := List.drop_of_length_le (by omega)
    have htake : acct.take lay.gamertag_offset = acct := List.take_of_length_le (by omega)
    rw [hdrop, htake, copy_and_swap_nil, List.append_nil, htake, hdrop, copy_and_swap_nil]
    simp

/-! ### Lemmas on the collections -/

theorem upsert_of_find_none {α : Type} (same : α → Bool) (x : α) (l : List α)
    (h : l.find? same = none) : upsert same x l = l ++ [x] := by
  induction l with
  | nil => rfl
  | cons y ys ih =>
    by_cases hy : same y = true
    · simp [List.find?, hy] at h
    · simp only [Bool.not_eq_true] at hy
      simp only [List.find?, hy] at h
      simp [upsert, hy, ih h]

theorem upsert_of_find_some {α : Type} (same : α → Bool) (x : α) (l : List α)
    (h : l.find? same = some x) : upsert same x l = l := by
  induction l with
  | nil => simp at h
  | cons y ys ih =>
    by_cases hy : same y = true
    · simp only [List.find?, hy, Option.some.injEq] at h
      subst h
      simp [upsert, hy]
    · simp only [Bool.not_eq_true] at hy
      simp only [List.find?, hy] at h
      simp [upsert, hy, ih h]

theorem find_upsert_self {α : Type} (same : α → Bool) (x : α) (l : List α)
    (hx : same x = true) : (upsert same x l).find? same = some x := by
  induction l with
  | nil => simp [upsert, List.find?, hx]
  | cons y ys ih =>
    by_cases hy : same y = true
    · simp [upsert, hy, List.find?, hx]
    · simp only [Bool.not_eq_true] at hy
      simp [upsert, hy, List.find?, ih]

theorem find_upsert_other {α : Type} (same q : α → Bool) (x : α) (l : List α)
    (hx : q x = false) (hq : ∀ y, same y = true → q y = false) :
    (upsert same x l).find? q = l.find? q := by
  induction l with
  | nil => simp [upsert, List.find?, hx]
  | cons y ys ih =>
    by_cases hy : same y = true
    · simp [upsert, hy, List.find?, hx, hq y hy]
    · simp only [Bool.not_eq_true] at hy
      simp only [upsert, hy, List.find?, ih]

theorem mem_upsert {α : Type} (same : α → Bool) (x : α) (l : List α) (z : α)
    (hz : z ∈ upsert same x l) : z = x ∨ z ∈ l := by
  induction l with
  | nil => exact Or.inl (by simpa [upsert] using hz)
  | cons y ys ih =>
    by_cases hy : same y = true
    · simp only [upsert, hy, if_true, List.mem_cons] at hz
      rcases hz with h | h
      · exact Or.inl h
      · exact Or.inr (List.mem_cons_of_mem _ h)
    · simp only [Bool.not_eq_true] at hy
      simp only [upsert, hy, Bool.false_eq_true, if_false, List.mem_cons] at hz
      rcases hz with h | h
      · exact Or.inr (by simp [h])
      · rcases ih h with h1 | h1
        · exact Or.inl h1
        · exact Or.inr (List.mem_cons_of_mem _ h1)

theorem findGpd_storeGpd_self (m : List (Nat × GpdFile)) (t : Nat) (g : GpdFile) :
    findGpd (storeGpd m t g) t = some g := by
  unfold findGpd storeGpd
  rw [find_upsert_self _ _ _ (by simp)]
  rfl

theorem storeGpd_of_findGpd (m : List (Nat × GpdFile)) (t : Nat) (g : GpdFile)
    (h : findGpd m t = some g) : storeGpd m t g = m := by
  unfold findGpd at h
  unfold storeGpd
  apply upsert_of_find_some
  cases hf : m.find? (fun p => p.1 == t) with
  | none => simp [hf] at h
  | some p =>
    have hp := List.find?_some hf
    simp only [beq_iff_eq] at hp
    simp only [hf, Option.map_some', Option.some.injEq] at h
    rw [← h, ← hp]

theorem GetTitle_title_id (d : GpdFile) (t : Nat) (ti : TitlePlayed)
    (h : d.GetTitle t = some ti) : ti.title_id = t := by
  have := List.find?_some h
  simpa using this

theorem GetTitle_mem (d : GpdFile) (t : Nat) (ti : TitlePlayed)
    (h : d.GetTitle t = some ti) : ti ∈ d.titles :=
  List.mem_of_find?_eq_some h

theorem GetTitle_UpdateTitle_self (d : GpdFile) (ti : TitlePlayed) :
    (d.UpdateTitle ti).GetTitle ti.title_id = some ti := by
  unfold GpdFile.GetTitle GpdFile.UpdateTitle
  exact find_upsert_self _ _ _ (by simp)

theorem GetTitle_UpdateTitle_other (d : GpdFile) (ti : TitlePlayed) (t : Nat)
    (h : ti.title_id ≠ t) : (d.UpdateTitle ti).GetTitle t = d.GetTitle t := by
  unfold GpdFile.GetTitle GpdFile.UpdateTitle
  apply find_upsert_other
  · simpa using h
  · intro y hy
    simp only [beq_iff_eq] at hy
    simp only [beq_eq_false_iff_ne, ne_eq]
    rw [hy]; exact h

theorem UpdateTitle_of_GetTitle (d : GpdFile) (t : Nat) (ti : TitlePlayed)
    (h : d.GetTitle t = some ti) : d.UpdateTitle ti = d := by
  have hid := GetTitle_title_id d t ti h
  unfold GpdFile.GetTitle at h
  unfold GpdFile.UpdateTitle
  rw [hid, upsert_of_find_some _ _ _ h]

/-! ### Lemmas on `UpdateGpd` -/

theorem u32_add_left (a b : Nat) : u32 (u32 a + b) = u32 (a + b) := by
  simp [u32, Nat.mod_add_mod]

theorem u32_lt (a : Nat) : u32 a < 2 ^ 32 := Nat.mod_lt _ (by norm_num)

theorem u32_of_lt {a : Nat} (h : a < 2 ^ 32) : u32 a = a := Nat.mod_eq_of_lt h

theorem tally_snoc (l : List Achievement) (a : Achievement) :
    tally (l ++ [a]) = tallyStep (tally l) a := by
  simp [tally, List.foldl_append]

theorem tally_eq (l : List Achievement) :
    (tally l).num_ach_total = u32 l.length ∧
    (tally l).gamerscore_total = u32 (gamerscoreSum l) ∧
    (tally l).num_ach_earned = u32 (l.filter fun a => a.unlocked).length ∧
    (tally l).gamerscore_earned = u32 (gamerscoreSum (l.filter fun a => a.unlocked)) := by
  induction l using List.reverseRecOn with
  | nil => simp [tally, u32, gamerscoreSum]
  | append_singleton l a ih =>
    obtain ⟨h1, h2, h3, h4⟩ := ih
    rw [tally_snoc]
    cases hu : a.unlocked <;>
      simp [tallyStep, Achievement.IsUnlocked, hu, h1, h2, h3, h4, u32_add_left, gamerscoreSum,
        List.filter_append]

theorem writeGpd_frame (host : Host) (s : UserProfile) (t : Nat) (k : GpdKind) (g : GpdFile) :
    (writeGpd host s t k g).2.dash_gpd_ = s.dash_gpd_ ∧
    (writeGpd host s t k g).2.title_gpds_ = s.title_gpds_ ∧
    (writeGpd host s t k g).2.account_ = s.account_ ∧
    (writeGpd host s t k g).2.curr_gpd_ = s.curr_gpd_ ∧
    (writeGpd host s t k g).2.curr_title_id_ = s.curr_title_id_ ∧
    (writeGpd host s t k g).2.updates = s.updates ++ [⟨t, k, g⟩] := by
  unfold writeGpd
  simp only
  split_ifs <;> simp

theorem withTally_self (ti : TitlePlayed) (t : Tally)
    (h1 : t.num_ach_total = ti.achievements_possible)
    (h2 : t.num_ach_earned = ti.achievements_earned)
    (h3 : t.gamerscore_total = ti.gamerscore_total)
    (h4 : t.gamerscore_earned = ti.gamerscore_earned) : withTally ti t = ti := by
  cases ti
  simp_all [withTally]

theorem syncDashboard_frame (host : Host) (s : UserProfile) (t : Nat) (g : GpdFile) :
    (syncDashboard host s t g).dash_gpd_ = syncedDash s.dash_gpd_ t g ∧
    (syncDashboard host s t g).title_gpds_ = s.title_gpds_ ∧
    (syncDashboard host s t g).account_ = s.account_ ∧
    (syncDashboard host s t g).curr_gpd_ = s.curr_gpd_ ∧
    (syncDashboard host s t g).curr_title_id_ = s.curr_title_id_ ∧
    ∃ extra, (syncDashboard host s t g).updates = s.updates ++ extra ∧
      ∀ u ∈ extra, u.kind = GpdKind.dashboard := by
  unfold syncDashboard syncedDash
  by_cases ht : t = kDashboardID
  · simp only [ht, bne_self_eq_false, Bool.false_eq_true, if_false, if_true, true_and]
    exact ⟨[], by simp, by simp⟩
  · have hne : (t != kDashboardID) = true := by simpa using ht
    simp only [hne, if_true, ht, if_false]
    cases hget : s.dash_gpd_.GetTitle t with
    | none => simp only [true_and]; exact ⟨[], by simp, by simp⟩
    | some ti =>
      simp only [GpdFile.GetAchievements]
      split_ifs with hd
      · obtain ⟨w1, w2, w3, w4, w5, w6⟩ := writeGpd_frame host
          { s with dash_gpd_ := s.dash_gpd_.UpdateTitle (withTally ti (tally g.achievements)) }
          kDashboardID GpdKind.dashboard
          (s.dash_gpd_.UpdateTitle (withTally ti (tally g.achievements)))
        exact ⟨w1, w2, w3, w4, w5, _, w6, by simp⟩
      · simp only [Bool.or_eq_true, bne_iff_ne, ne_eq, not_or, Decidable.not_not] at hd
        obtain ⟨⟨⟨h1, h2⟩, h3⟩, h4⟩ := hd
        rw [withTally_self ti _ h1 h2 h3 h4, UpdateTitle_of_GetTitle _ _ _ hget]
        simp only [true_and]
        exact ⟨[], by simp, by simp⟩

theorem UpdateGpd_frame (host : Host) (s : UserProfile) (t : Nat) (k : GpdKind) (g : GpdFile) :
    ((UpdateGpd host s t k g).2.dash_gpd_ = s.dash_gpd_ ∨
      (UpdateGpd host s t k g).2.dash_gpd_ = syncedDash s.dash_gpd_ t g) ∧
    (UpdateGpd host s t k g).2.title_gpds_ = s.title_gpds_ ∧
    (UpdateGpd host s t k g).2.account_ = s.account_ ∧
    (UpdateGpd host s t k g).2.curr_gpd_ = s.curr_gpd_ ∧
    (UpdateGpd host s t k g).2.curr_title_id_ = s.curr_title_id_ ∧
    ∃ extra, (UpdateGpd host s t k g).2.updates = s.updates ++ ⟨t, k, g⟩ :: extra ∧
      ∀ u ∈ extra, u.kind = GpdKind.dashboard := by
  obtain ⟨w1, w2, w3, w4, w5, w6⟩ := writeGpd_frame host s t k g
  unfold UpdateGpd
  simp only
  split_ifs with hw
  · obtain ⟨y1, y2, y3, y4, y5, extra, y6, y7⟩ :=
      syncDashboard_frame host (writeGpd host s t k g).2 t g
    refine ⟨Or.inr (by rw [y1, w1]), by rw [y2, w2], by rw [y3, w3], by rw [y4, w4],
      by rw [y5, w5], extra, ?_, y7⟩
    rw [y6, w6]; simp
  · exact ⟨Or.inl w1, w2, w3, w4, w5, [], by simpa using w6, by simp⟩

theorem syncedDash_dashboard (d g : GpdFile) : syncedDash d kDashboardID g = d := by
  simp [syncedDash]

theorem UpdateGpd_dashboard_dash (host : Host) (s : UserProfile) (k : GpdKind) (g : GpdFile) :
    (UpdateGpd host s kDashboardID k g).2.dash_gpd_ = s.dash_gpd_ := by
  rcases (UpdateGpd_frame host s kDashboardID k g).1 with h | h
  · exact h
  · rw [h, syncedDash_dashboard]

/-! ### Lemmas on the catalogue-growth loop -/

theorem find_append_none {α : Type} (q : α → Bool) (l : List α) (x : α)
    (h : (l ++ [x]).find? q = none) : l.find? q = none ∧ q x = false := by
  simp only [List.find?_eq_none, List.mem_append, List.mem_singleton, Bool.not_eq_true] at h ⊢
  exact ⟨fun y hy => h y (Or.inl hy), h x (Or.inr rfl)⟩

theorem fresh_cons_present (present rest : List Achievement) (a : Achievement)
    (h : (present.find? fun x => x.id == a.id).isSome = true) :
    fresh present (a :: rest) = fresh present rest := by
  rw [fresh]; simp only [h, if_true]

theorem fresh_cons_absent (present rest : List Achievement) (a : Achievement)
    (h : ¬ (present.find? fun x => x.id == a.id).isSome = true) :
    fresh present (a :: rest) = a :: fresh (present ++ [a]) rest := by
  rw [fresh]; simp only [h, Bool.false_eq_true, if_false]

theorem fresh_sublist (present l : List Achievement) : (fresh present l).Sublist l := by
  induction l generalizing present with
  | nil => exact List.Sublist.slnil
  | cons a rest ih =>
    by_cases hb : (present.find? fun x => x.id == a.id).isSome = true
    · rw [fresh_cons_present _ _ _ hb]; exact (ih present).cons a
    · rw [fresh_cons_absent _ _ _ hb]; exact (ih _).cons₂ a

theorem fresh_absent (present l : List Achievement) :
    ∀ a ∈ fresh present l, present.find? (fun x => x.id == a.id) = none := by
  induction l generalizing present with
  | nil => intro a ha; simp [fresh] at ha
  | cons b rest ih =>
    intro a ha
    by_cases hb : (present.find? fun x => x.id == b.id).isSome = true
    · rw [fresh_cons_present _ _ _ hb] at ha
      exact ih present a ha
    · rw [fresh_cons_absent _ _ _ hb] at ha
      rcases List.mem_cons.mp ha with h | h
      · subst h
        simpa using hb
      · exact (find_append_none _ _ _ (ih _ a h)).1

theorem fresh_nodup (present l : List Achievement) :
    ((fresh present l).map fun a => a.id).Nodup := by
  induction l generalizing present with
  | nil => simp [fresh]
  | cons b rest ih =>
    by_cases hb : (present.find? fun x => x.id == b.id).isSome = true
    · rw [fresh_cons_present _ _ _ hb]; exact ih present
    · rw [fresh_cons_absent _ _ _ hb, List.map_cons, List.nodup_cons]
      refine ⟨?_, ih _⟩
      intro hmem
      obtain ⟨a, ha, hid⟩ := List.mem_map.mp hmem
      have h2 := (find_append_none _ _ _ (fresh_absent _ _ a ha)).2
      simp only [beq_eq_false_iff_ne, ne_eq] at h2
      exact h2 hid.symm

theorem fresh_complete (present l : List Achievement) :
    ∀ a ∈ l, present.find? (fun x => x.id == a.id) = none →
      a.id ∈ (fresh present l).map fun a => a.id := by
  induction l generalizing present with
  | nil => intro a ha; simp at ha
  | cons b rest ih =>
    intro a ha hnone
    by_cases hb : (present.find? fun x => x.id == b.id).isSome = true
    · rw [fresh_cons_present _ _ _ hb]
      rcases List.mem_cons.mp ha with h | h
      · subst h; simp [hnone] at hb
      · exact ih present a h hnone
    · rw [fresh_cons_absent _ _ _ hb]
      by_cases hid : a.id = b.id
      · simp [hid]
      · rcases List.mem_cons.mp ha with h | h
        · subst h; exact absurd rfl hid
        · rw [List.map_cons]
          apply List.mem_cons_of_mem
          apply ih _ a h
          rw [List.find?_append, hnone]
          have : (b.id == a.id) = false := by simpa using fun h => hid h.symm
          simp [List.find?, this]

theorem fresh_eq_nil_iff (present l : List Achievement) :
    fresh present l = [] ↔ ∀ a ∈ l, (present.find? fun x => x.id == a.id).isSome = true := by
  induction l generalizing present with
  | nil => simp [fresh]
  | cons b rest ih =>
    by_cases hb : (present.find? fun x => x.id == b.id).isSome = true
    · rw [fresh_cons_present _ _ _ hb, ih present]
      constructor
      · intro h a ha
        rcases List.mem_cons.mp ha with h1 | h1
        · subst h1; exact hb
        · exact h a h1
      · intro h a ha
        exact h a (List.mem_cons_of_mem _ ha)
    · rw [fresh_cons_absent _ _ _ hb]
      constructor
      · intro h; simp at h
      · intro h; exact absurd (h b (List.mem_cons_self _ _)) hb

theorem mergeStep_present (b : Bool) (m : Merge) (a : Achievement)
    (hex : (m.title_gpd.achievements.find? fun x => x.id == a.id).isSome = true) :
    (mergeStep b m a).title_gpd = m.title_gpd ∧
    (mergeStep b m a).ach_updated = m.ach_updated := by
  unfold mergeStep
  simp only [GpdFile.GetAchievement, hex]
  cases b <;> simp

theorem mergeStep_absent (b : Bool) (m : Merge) (a : Achievement)
    (hex : ¬ (m.title_gpd.achievements.find? fun x => x.id == a.id).isSome = true) :
    mergeStep b m a =
      { title_info := { m.title_info with
          achievements_possible := u32 (m.title_info.achievements_possible + 1),
          gamerscore_total := u32 (m.title_info.gamerscore_total + a.gamerscore) },
        title_gpd := { m.title_gpd with achievements := m.title_gpd.achievements ++ [a] },
        ach_updated := true } := by
  have hnone : m.title_gpd.achievements.find? (fun x => x.id == a.id) = none := by
    simpa using hex
  unfold mergeStep
  simp only [GpdFile.GetAchievement, hnone, GpdFile.UpdateAchievement,
    upsert_of_find_none _ _ _ hnone]
  simp

theorem merge_fold_gpd (b : Bool) (l : List Achievement) (m : Merge) :
    (l.foldl (mergeStep b) m).title_gpd =
      { m.title_gpd with
        achievements := m.title_gpd.achievements ++ fresh m.title_gpd.achievements l } ∧
    (l.foldl (mergeStep b) m).ach_updated =
      (m.ach_updated || !(fresh m.title_gpd.achievements l).isEmpty) := by
  induction l generalizing m with
  | nil => simp [fresh]
  | cons a rest ih =>
    rw [List.foldl_cons]
    obtain ⟨ih1, ih2⟩ := ih (mergeStep b m a)
    rw [ih1, ih2]
    by_cases hex : (m.title_gpd.achievements.find? fun x => x.id == a.id).isSome = true
    · obtain ⟨h1, h2⟩ := mergeStep_present b m a hex
      rw [fresh_cons_present _ _ _ hex, h1, h2]
      exact ⟨rfl, rfl⟩
    · rw [fresh_cons_absent _ _ _ hex, mergeStep_absent b m a hex]
      simp

theorem merge_fold_info (b : Bool) (l : List Achievement) (m : Merge) :
    (l.foldl (mergeStep b) m).title_info.title_id = m.title_info.title_id ∧
    (l.foldl (mergeStep b) m).title_info.title_name = m.title_info.title_name ∧
    (l.foldl (mergeStep b) m).title_info.achievements_earned = m.title_info.achievements_earned ∧
    (l.foldl (mergeStep b) m).title_info.gamerscore_earned = m.title_info.gamerscore_earned ∧
    (l.foldl (mergeStep b) m).title_info.last_played = m.title_info.last_played := by
  induction l generalizing m with
  | nil => simp
  | cons a rest ih =>
    rw [List.foldl_cons]
    obtain ⟨i1, i2, i3, i4, i5⟩ := ih (mergeStep b m a)
    rw [i1, i2, i3, i4, i5]
    unfold mergeStep
    simp only
    split_ifs <;> simp

theorem merge_fold_counts (l : List Achievement) (m : Merge)
    (hp : m.title_info.achievements_possible < 2 ^ 32)
    (hg : m.title_info.gamerscore_total < 2 ^ 32) :
    (l.foldl (mergeStep false) m).title_info.achievements_possible =
      u32 (m.title_info.achievements_possible + (fresh m.title_gpd.achievements l).length) ∧
    (l.foldl (mergeStep false) m).title_info.gamerscore_total =
      u32 (m.title_info.gamerscore_total +
        gamerscoreSum (fresh m.title_gpd.achievements l)) := by
  induction l generalizing m with
  | nil => simp [fresh, gamerscoreSum, u32_of_lt hp, u32_of_lt hg]
  | cons a rest ih =>
    rw [List.foldl_cons]
    by_cases hex : (m.title_gpd.achievements.find? fun x => x.id == a.id).isSome = true
    · have hstep : mergeStep false m a = m := by
        unfold mergeStep
        simp [GpdFile.GetAchievement, hex]
      rw [hstep, fresh_cons_present _ _ _ hex]
      exact ih m hp hg
    · rw [mergeStep_absent false m a hex, fresh_cons_absent _ _ _ hex]
      obtain ⟨i1, i2⟩ := ih
        { title_info := { m.title_info with
            achievements_possible := u32 (m.title_info.achievements_possible + 1),
            gamerscore_total := u32 (m.title_info.gamerscore_total + a.gamerscore) },
          title_gpd := { m.title_gpd with achievements := m.title_gpd.achievements ++ [a] },
          ach_updated := true } (u32_lt _) (u32_lt _)
      rw [i1, i2]
      simp only [List.length_cons, gamerscoreSum, List.map_cons, List.sum_cons, u32_add_left]
      constructor
      · congr 1; omega
      · congr 1; omega

/-! ### Lemmas on the creation of a new collection -/

theorem create_fold_gpd (l : List Achievement) (m : TitlePlayed × GpdFile) :
    (l.foldl createStep m).2 = l.foldl GpdFile.UpdateAchievement m.2 := by
  induction l generalizing m with
  | nil => rfl
  | cons a rest ih => rw [List.foldl_cons, List.foldl_cons, ih]; rfl

theorem create_fold_info (l : List Achievement) (m : TitlePlayed × GpdFile) :
    (l.foldl createStep m).1.title_id = m.1.title_id ∧
    (l.foldl createStep m).1.title_name = m.1.title_name ∧
    (l.foldl createStep m).1.achievements_earned = m.1.achievements_earned ∧
    (l.foldl createStep m).1.gamerscore_earned = m.1.gamerscore_earned ∧
    (l.foldl createStep m).1.last_played = m.1.last_played := by
  induction l generalizing m with
  | nil => simp
  | cons a rest ih =>
    rw [List.foldl_cons]
    obtain ⟨i1, i2, i3, i4, i5⟩ := ih (createStep m a)
    rw [i1, i2, i3, i4, i5]
    simp [createStep]

theorem create_fold_counts (l : List Achievement) (m : TitlePlayed × GpdFile)
    (hp : m.1.achievements_possible < 2 ^ 32) (hg : m.1.gamerscore_total < 2 ^ 32) :
    (l.foldl createStep m).1.achievements_possible =
      u32 (m.1.achievements_possible + l.length) ∧
    (l.foldl createStep m).1.gamerscore_total =
      u32 (m.1.gamerscore_total + gamerscoreSum l) := by
  induction l generalizing m with
  | nil => simp [gamerscoreSum, u32_of_lt hp, u32_of_lt hg]
  | cons a rest ih =>
    rw [List.foldl_cons]
    obtain ⟨i1, i2⟩ := ih (createStep m a) (u32_lt _) (u32_lt _)
    rw [i1, i2]
    simp only [createStep, List.length_cons, gamerscoreSum, List.map_cons, List.sum_cons,
      u32_add_left]
    constructor
    · congr 1; omega
    · congr 1; omega

theorem UpdateAchievement_fold_distinct (l : List Achievement) (g : GpdFile)
    (habs : ∀ a ∈ l, g.achievements.find? (fun x => x.id == a.id) = none)
    (hnd : (l.map fun a => a.id).Nodup) :
    l.foldl GpdFile.UpdateAchievement g = { g with achievements := g.achievements ++ l } := by
  induction l generalizing g with
  | nil => simp
  | cons a rest ih =>
    rw [List.foldl_cons]
    have ha := habs a (List.mem_cons_self _ _)
    have hstep : g.UpdateAchievement a = { g with achievements := g.achievements ++ [a] } := by
      simp [GpdFile.UpdateAchievement, upsert_of_find_none _ _ _ ha]
    rw [List.map_cons, List.nodup_cons] at hnd
    rw [hstep, ih _ _ hnd.2]
    · simp
    · intro b hb
      have hne : (a.id == b.id) = false := by
        simp only [beq_eq_false_iff_ne, ne_eq]
        intro h
        exact hnd.1 (List.mem_map.mpr ⟨b, hb, h.symm⟩)
      simp only [List.find?_append, habs b (List.mem_cons_of_mem _ hb), List.find?, hne,
        Option.none_or]

theorem UpdateAchievement_present (g : GpdFile) (a : Achievement) (id : Nat)
    (h : id = a.id ∨ (g.GetAchievement id).isSome = true) :
    ((g.UpdateAchievement a).GetAchievement id).isSome = true := by
  unfold GpdFile.GetAchievement GpdFile.UpdateAchievement
  by_cases hid : id = a.id
  · subst hid
    simp only []
    rw [find_upsert_self _ _ _ (by simp)]
    rfl
  · rcases h with h | h
    · exact absurd h hid
    · simp only []
      rw [find_upsert_other]
      · exact h
      · simpa using fun h => hid h.symm
      · intro y hy
        simp only [beq_iff_eq] at hy
        simp only [beq_eq_false_iff_ne, ne_eq]
        rw [hy]; exact fun h => hid h.symm

theorem UpdateAchievement_fold_present (l : List Achievement) (g : GpdFile) (id : Nat)
    (h : (∃ a ∈ l, a.id = id) ∨ (g.GetAchievement id).isSome = true) :
    ((l.foldl GpdFile.UpdateAchievement g).GetAchievement id).isSome = true := by
  induction l generalizing g with
  | nil =>
    rcases h with ⟨a, ha, -⟩ | h
    · simp at ha
    · exact h
  | cons b rest ih =>
    rw [List.foldl_cons]
    apply ih
    rcases h with ⟨a, ha, hid⟩ | h
    · rcases List.mem_cons.mp ha with h1 | h1
      · subst h1
        exact Or.inr (UpdateAchievement_present g a id (Or.inl hid.symm))
      · exact Or.inl ⟨a, h1, hid⟩
    · exact Or.inr (UpdateAchievement_present g b id (Or.inr h))

theorem upsert_length_le {α : Type} (same : α → Bool) (x : α) (l : List α) :
    (upsert same x l).length ≤ l.length + 1 := by
  induction l with
  | nil => simp [upsert]
  | cons y ys ih =>
    unfold upsert
    split_ifs
    · simp
    · simp only [List.length_cons]; omega

theorem upsert_sum_le {α : Type} (same : α → Bool) (f : α → Nat) (x : α) (l : List α) :
    ((upsert same x l).map f).sum ≤ (l.map f).sum + f x := by
  induction l with
  | nil => simp [upsert]
  | cons y ys ih =>
    unfold upsert
    split_ifs
    · simp only [List.map_cons, List.sum_cons]; omega
    · simp only [List.map_cons, List.sum_cons]; omega

theorem UpdateAchievement_fold_size (l : List Achievement) (g : GpdFile) :
    (l.foldl GpdFile.UpdateAchievement g).achievements.length ≤
      g.achievements.length + l.length ∧
    gamerscoreSum (l.foldl GpdFile.UpdateAchievement g).achievements ≤
      gamerscoreSum g.achievements + gamerscoreSum l := by
  induction l generalizing g with
  | nil => simp
  | cons a rest ih =>
    rw [List.foldl_cons]
    obtain ⟨i1, i2⟩ := ih (g.UpdateAchievement a)
    have h1 := upsert_length_le (fun x : Achievement => x.id == a.id) a g.achievements
    have h2 := upsert_sum_le (fun x : Achievement => x.id == a.id) (fun x => x.gamerscore) a
      g.achievements
    simp only [GpdFile.UpdateAchievement, gamerscoreSum, List.length_cons, List.map_cons,
      List.sum_cons] at *
    constructor <;> omega

theorem copyImage_fold_achievements (host : Host) (spa : SpaFile) (l : List Achievement)
    (g : GpdFile) : (l.foldl (copyImage host spa) g).achievements = g.achievements := by
  induction l generalizing g with
  | nil => rfl
  | cons a rest ih =>
    rw [List.foldl_cons, ih]
    unfold copyImage
    cases spa.GetEntry host.kImage a.image_id <;> rfl

theorem reconciled_new (host : Host) (s : UserProfile) (spa : SpaFile) (now : Nat)
    (h : findGpd s.title_gpds_ spa.title_id = none) :
    (reconciled host s spa now).1 =
      (spa.achievements.foldl createStep
        ({ title_name := spa.title_name, title_id := spa.title_id, last_played := now },
         { title_id := spa.title_id })).1 ∧
    (reconciled host s spa now).2.1.achievements =
      (spa.achievements.foldl GpdFile.UpdateAchievement { title_id := spa.title_id }).achievements ∧
    (reconciled host s spa now).2.2 = true := by
  simp only [reconciled, h, true_and, and_true]
  have hcf := create_fold_gpd spa.achievements
      ({ title_name := spa.title_name, title_id := spa.title_id, last_played := now },
       { title_id := spa.title_id })
  have himg := copyImage_fold_achievements host spa spa.achievements
    (spa.achievements.foldl createStep
      ({ title_name := spa.title_name, title_id := spa.title_id, last_played := now },
       { title_id := spa.title_id })).2
  have key := himg.trans (congrArg GpdFile.achievements hcf)
  cases spa.GetEntry host.kImage host.kSpaTitle <;>
    by_cases hn : (spa.title_name.length != 0) = true <;>
    simp only [hn, GpdFile.UpdateEntry, if_true, if_false, Bool.false_eq_true] <;>
    exact key

theorem reconciled_existing (host : Host) (s : UserProfile) (spa : SpaFile) (now : Nat)
    (g : GpdFile) (h : findGpd s.title_gpds_ spa.title_id = some g) :
    (reconciled host s spa now).2.1 =
      { g with achievements := g.achievements ++ fresh g.achievements spa.achievements } ∧
    (reconciled host s spa now).2.2 = !(fresh g.achievements spa.achievements).isEmpty ∧
    (reconciled host s spa now).1.title_id = spa.title_id ∧
    (reconciled host s spa now).1.last_played = now ∧
    (∀ ti, s.dash_gpd_.GetTitle spa.title_id = some ti →
      (reconciled host s spa now).1.title_name = ti.title_name ∧
      (reconciled host s spa now).1.achievements_earned = ti.achievements_earned ∧
      (reconciled host s spa now).1.gamerscore_earned = ti.gamerscore_earned ∧
      (ti.achievements_possible < 2 ^ 32 → ti.gamerscore_total < 2 ^ 32 →
        (reconciled host s spa now).1.achievements_possible =
          u32 (ti.achievements_possible + (fresh g.achievements spa.achievements).length) ∧
        (reconciled host s spa now).1.gamerscore_total =
          u32 (ti.gamerscore_total + gamerscoreSum (fresh g.achievements spa.achievements)))) ∧
    (s.dash_gpd_.GetTitle spa.title_id = none →
      (reconciled host s spa now).1.achievements_earned = 0 ∧
      (reconciled host s spa now).1.gamerscore_earned = 0) := by
  simp only [reconciled, h]
  cases hget : s.dash_gpd_.GetTitle spa.title_id with
  | none =>
    simp only [Option.isNone_none]
    obtain ⟨m1, m2⟩ := merge_fold_gpd true spa.achievements
      { title_info := { title_name := spa.title_name, title_id := spa.title_id,
                        last_played := now },
        title_gpd := g, ach_updated := false }
    obtain ⟨j1, j2, j3, j4, j5⟩ := merge_fold_info true spa.achievements
      { title_info := { title_name := spa.title_name, title_id := spa.title_id,
                        last_played := now },
        title_gpd := g, ach_updated := false }
    refine ⟨m1, by simpa using m2, j1, j5, ?_, fun _ => ⟨j3, j4⟩⟩
    intro ti hti
    simp at hti
  | some ti0 =>
    simp only [Option.isNone_some]
    obtain ⟨m1, m2⟩ := merge_fold_gpd false spa.achievements
      { title_info := { ti0 with last_played := now }, title_gpd := g, ach_updated := false }
    obtain ⟨j1, j2, j3, j4, j5⟩ := merge_fold_info false spa.achievements
      { title_info := { ti0 with last_played := now }, title_gpd := g, ach_updated := false }
    refine ⟨m1, by simpa using m2, j1.trans (GetTitle_title_id _ _ ti0 hget), j5, ?_, ?_⟩
    · intro ti hti
      simp only [Option.some.injEq] at hti
      subst hti
      refine ⟨j2, j3, j4, ?_⟩
      intro hp hg
      exact merge_fold_counts spa.achievements
        { title_info := { ti0 with last_played := now }, title_gpd := g, ach_updated := false }
        hp hg
    · intro hnone
      simp at hnone

/-! ### Lemmas on `SetTitleSpaData` -/

theorem SetTitleSpaData_eq (host : Host) (s : UserProfile) (spa : SpaFile) (now : Nat) :
    SetTitleSpaData host s spa now =
      let r := reconciled host s spa now
      let s1 := { s with title_gpds_ := storeGpd s.title_gpds_ spa.title_id r.2.1,
                         dash_gpd_ := s.dash_gpd_.UpdateTitle r.1 }
      let s2 := if r.2.2 then (UpdateGpd host s1 spa.title_id GpdKind.title r.2.1).2 else s1
      let s3 := (UpdateGpd host s2 kDashboardID GpdKind.dashboard s2.dash_gpd_).2
      { s3 with curr_gpd_ := some spa.title_id, curr_title_id_ := spa.title_id } := by
  cases h : findGpd s.title_gpds_ spa.title_id with
  | none => simp only [SetTitleSpaData, reconciled, h, if_true]
  | some g => simp only [SetTitleSpaData, reconciled, h]

theorem UpdateGpd_dashboard (host : Host) (s : UserProfile) (k : GpdKind) (g : GpdFile) :
    (UpdateGpd host s kDashboardID k g).2 = (writeGpd host s kDashboardID k g).2 := by
  unfold UpdateGpd syncDashboard
  simp only [bne_self_eq_false, Bool.false_eq_true, if_false]
  split_ifs <;> rfl

theorem SetTitleSpaData_frame (host : Host) (s : UserProfile) (spa : SpaFile) (now : Nat) :
    (SetTitleSpaData host s spa now).title_gpds_ =
      storeGpd s.title_gpds_ spa.title_id (reconciled host s spa now).2.1 ∧
    ((SetTitleSpaData host s spa now).dash_gpd_ =
        s.dash_gpd_.UpdateTitle (reconciled host s spa now).1 ∨
      ((reconciled host s spa now).2.2 = true ∧
        (SetTitleSpaData host s spa now).dash_gpd_ =
          syncedDash (s.dash_gpd_.UpdateTitle (reconciled host s spa now).1) spa.title_id
            (reconciled host s spa now).2.1)) ∧
    (SetTitleSpaData host s spa now).account_ = s.account_ ∧
    (SetTitleSpaData host s spa now).curr_gpd_ = some spa.title_id ∧
    (SetTitleSpaData host s spa now).curr_title_id_ = spa.title_id ∧
    ∃ extra, (∀ u ∈ extra, u.kind = GpdKind.dashboard) ∧
      (SetTitleSpaData host s spa now).updates =
        s.updates ++
          (if (reconciled host s spa now).2.2 = true then
            ⟨spa.title_id, GpdKind.title, (reconciled host s spa now).2.1⟩ :: extra else []) ++
          [⟨kDashboardID, GpdKind.dashboard, (SetTitleSpaData host s spa now).dash_gpd_⟩] := by
  rw [SetTitleSpaData_eq]
  simp only
  generalize reconciled host s spa now = r
  obtain ⟨ti, g, w⟩ := r
  simp only [UpdateGpd_dashboard]
  cases w with
  | false =>
    simp only [Bool.false_eq_true, if_false, false_and, or_false, List.append_nil]
    obtain ⟨f1, f2, f3, -, -, f6⟩ := writeGpd_frame host
      { s with title_gpds_ := storeGpd s.title_gpds_ spa.title_id g,
               dash_gpd_ := s.dash_gpd_.UpdateTitle ti }
      kDashboardID GpdKind.dashboard (s.dash_gpd_.UpdateTitle ti)
    refine ⟨f2, f1, f3, trivial, trivial, [], by simp, ?_⟩
    simp only [f6, f1]
  | true =>
    simp only [if_true, true_and]
    obtain ⟨u1, u2, u3, -, -, extra, u6, u7⟩ := UpdateGpd_frame host
      { s with title_gpds_ := storeGpd s.title_gpds_ spa.title_id g,
               dash_gpd_ := s.dash_gpd_.UpdateTitle ti }
      spa.title_id GpdKind.title g
    obtain ⟨f1, f2, f3, -, -, f6⟩ := writeGpd_frame host
      (UpdateGpd host
        { s with title_gpds_ := storeGpd s.title_gpds_ spa.title_id g,
                 dash_gpd_ := s.dash_gpd_.UpdateTitle ti }
        spa.title_id GpdKind.title g).2
      kDashboardID GpdKind.dashboard
      (UpdateGpd host
        { s with title_gpds_ := storeGpd s.title_gpds_ spa.title_id g,
                 dash_gpd_ := s.dash_gpd_.UpdateTitle ti }
        spa.title_id GpdKind.title g).2.dash_gpd_
    refine ⟨by rw [f2, u2], by rw [f1]; exact u1, by rw [f3, u3], extra, u7, ?_⟩
    simp only [f6, f1, u6, List.append_assoc, List.cons_append]

/-! ### Reconciliation -/

theorem reconciled_flag (host : Host) (s : UserProfile) (spa : SpaFile) (now : Nat) :
    (reconciled host s spa now).2.2 = true ↔
      (findGpd s.title_gpds_ spa.title_id = none ∨
        ∃ g, findGpd s.title_gpds_ spa.title_id = some g ∧
          ∃ a ∈ spa.achievements, g.GetAchievement a.id = none) := by
  cases h : findGpd s.title_gpds_ spa.title_id with
  | none => simp [(reconciled_new host s spa now h).2.2]
  | some g =>
    rw [(reconciled_existing host s spa now g h).2.1]
    have hnil := fresh_eq_nil_iff g.achievements spa.achievements
    constructor
    · intro hne
      refine Or.inr ⟨g, rfl, ?_⟩
      by_contra hcon
      have hall : ∀ a ∈ spa.achievements,
          (g.achievements.find? fun x => x.id == a.id).isSome = true := by
        intro a ha
        by_contra hsome
        exact hcon ⟨a, ha, by simpa [GpdFile.GetAchievement] using hsome⟩
      rw [hnil.mpr hall] at hne
      simp at hne
    · rintro (hnone | ⟨g', hg', a, ha, hnone⟩)
      · cases hnone
      · cases hg'
        by_contra hcon
        have hempty : fresh g.achievements spa.achievements = [] := by simpa using hcon
        have hsome := hnil.mp hempty a ha
        simp only [GpdFile.GetAchievement] at hnone
        rw [hnone] at hsome
        simp at hsome

/-- Claim C9. Existing achievement records are never overwritten by
reconciliation. For every title that has a per-title collection `g` (whether
or not the dashboard holds a summary for it) and every declared catalogue, the
collection after `SetTitleSpaData` starts with the records of `g` unchanged,
and looking up any id that `g` held yields the very same record: an unlocked
achievement stays unlocked whatever the catalogue declares for its id. -/
theorem existing_achievements_kept (host : Host) (s : UserProfile) (spa : SpaFile) (now : Nat)
    (g : GpdFile) (hg : findGpd s.title_gpds_ spa.title_id = some g) :
    ∃ g', findGpd (SetTitleSpaData host s spa now).title_gpds_ spa.title_id = some g' ∧
      g.achievements <+: g'.achievements ∧
      ∀ id a, g.GetAchievement id = some a → g'.GetAchievement id = some a := by
  refine ⟨(reconciled host s spa now).2.1, ?_, ?_, ?_⟩
  · rw [(SetTitleSpaData_frame host s spa now).1, findGpd_storeGpd_self]
  · rw [(reconciled_existing host s spa now g hg).1]
    exact List.prefix_append _ _
  · intro id a ha
    rw [(reconciled_existing host s spa now g hg).1]
    simp only [GpdFile.GetAchievement] at ha ⊢
    rw [List.find?_append, ha]
    rfl

/-- Witness for `existing_achievements_kept`: achievement 1 is unlocked in the
collection and declared locked by the catalogue. -/
theorem existing_achievements_kept_witness :
    findGpd playedProfile.title_gpds_ spaGrow.title_id = some gpdOne ∧
    ∃ g', findGpd (SetTitleSpaData okHost playedProfile spaGrow 7).title_gpds_
        spaGrow.title_id = some g' ∧
      gpdOne.achievements <+: g'.achievements ∧
      ∀ id a, gpdOne.GetAchievement id = some a → g'.GetAchievement id = some a :=
  ⟨rfl, existing_achievements_kept okHost playedProfile spaGrow 7 gpdOne rfl⟩

/-- Claim C5. Write policy. The invocations of `UpdateGpd` made by one call of
`SetTitleSpaData` contain a request to persist the title's collection exactly
when the title had no collection before or some declared achievement was
absent from the existing collection; such a request names the title and
carries the collection stored for it. A request to persist the dashboard
collection, carrying its final contents, is made on every call. -/
theorem write_policy (host : Host) (s : UserProfile) (spa : SpaFile) (now : Nat) :
    ∃ news, (SetTitleSpaData host s spa now).updates = s.updates ++ news ∧
      ((∃ u ∈ news, u.kind = GpdKind.title) ↔
        (findGpd s.title_gpds_ spa.title_id = none ∨
          ∃ g, findGpd s.title_gpds_ spa.title_id = some g ∧
            ∃ a ∈ spa.achievements, g.GetAchievement a.id = none)) ∧
      (∀ u ∈ news, u.kind = GpdKind.title →
        u.title_id = spa.title_id ∧
        findGpd (SetTitleSpaData host s spa now).title_gpds_ spa.title_id = some u.data) ∧
      ⟨kDashboardID, GpdKind.dashboard, (SetTitleSpaData host s spa now).dash_gpd_⟩ ∈ news := by
  obtain ⟨f1, -, -, -, -, extra, hextra, hupd⟩ := SetTitleSpaData_frame host s spa now
  rw [List.append_assoc] at hupd
  refine ⟨_, hupd, ?_, ?_, by simp⟩
  · rw [← reconciled_flag host s spa now]
    by_cases hw : (reconciled host s spa now).2.2 = true
    · simp [hw]
    · simp only [hw, if_false, List.nil_append, List.mem_singleton, exists_eq_left,
        Bool.false_eq_true, iff_false]
      simp
  · intro u hu hk
    by_cases hw : (reconciled host s spa now).2.2 = true
    · simp only [hw, if_true, List.cons_append, List.mem_cons, List.mem_append,
        List.mem_singleton] at hu
      rcases hu with h | h | h
      · subst h
        exact ⟨rfl, by rw [f1, findGpd_storeGpd_self]⟩
      · rw [hextra u h] at hk; cases hk
      · simp only [List.not_mem_nil, or_false] at h
        subst h; cases hk
    · simp only [hw, if_false, List.nil_append, List.mem_singleton, Bool.false_eq_true] at hu
      subst hu; cases hk

theorem merge_fold_noop (l : List Achievement) (m : Merge)
    (h : ∀ a ∈ l, (m.title_gpd.achievements.find? fun x => x.id == a.id).isSome = true) :
    l.foldl (mergeStep false) m = m := by
  induction l with
  | nil => rfl
  | cons a rest ih =>
    have hstep : mergeStep false m a = m := by
      unfold mergeStep
      simp [GpdFile.GetAchievement, h a (List.mem_cons_self _ _)]
    rw [List.foldl_cons, hstep]
    exact ih fun b hb => h b (List.mem_cons_of_mem _ hb)

theorem reconciled_noop (host : Host) (s : UserProfile) (spa : SpaFile) (now : Nat)
    (g : GpdFile) (ti : TitlePlayed)
    (hg : findGpd s.title_gpds_ spa.title_id = some g)
    (hget : s.dash_gpd_.GetTitle spa.title_id = some ti)
    (hall : ∀ a ∈ spa.achievements,
      (g.achievements.find? fun x => x.id == a.id).isSome = true) :
    reconciled host s spa now = ({ ti with last_played := now }, g, false) := by
  simp only [reconciled, hg, hget, Option.isNone_some]
  rw [merge_fold_noop _ _ hall]

theorem reconciled_title_id (host : Host) (s : UserProfile) (spa : SpaFile) (now : Nat) :
    (reconciled host s spa now).1.title_id = spa.title_id := by
  cases h : findGpd s.title_gpds_ spa.title_id with
  | none =>
    rw [(reconciled_new host s spa now h).1]
    exact (create_fold_info _ _).1
  | some g => exact (reconciled_existing host s spa now g h).2.2.1

theorem reconciled_declared_present (host : Host) (s : UserProfile) (spa : SpaFile)
    (now : Nat) : ∀ a ∈ spa.achievements,
      ((reconciled host s spa now).2.1.achievements.find? fun x => x.id == a.id).isSome
        = true := by
  intro a ha
  cases h : findGpd s.title_gpds_ spa.title_id with
  | none =>
    rw [(reconciled_new host s spa now h).2.1]
    exact UpdateAchievement_fold_present spa.achievements _ a.id (Or.inl ⟨a, ha, rfl⟩)
  | some g =>
    rw [(reconciled_existing host s spa now g h).1]
    simp only [List.find?_append]
    cases hf : g.achievements.find? (fun x => x.id == a.id) with
    | some x => rfl
    | none =>
      have hmem := fresh_complete g.achievements spa.achievements a ha hf
      obtain ⟨x, hx, hid⟩ := List.mem_map.mp hmem
      simp only [Option.none_or, List.find?_isSome]
      exact ⟨x, hx, by simpa using hid⟩

theorem SetTitleSpaData_summary (host : Host) (s : UserProfile) (spa : SpaFile) (now : Nat) :
    (SetTitleSpaData host s spa now).dash_gpd_.GetTitle spa.title_id =
        some (reconciled host s spa now).1 ∨
      ((reconciled host s spa now).2.2 = true ∧ spa.title_id ≠ kDashboardID ∧
        (SetTitleSpaData host s spa now).dash_gpd_.GetTitle spa.title_id =
          some (withTally (reconciled host s spa now).1
            (tally (reconciled host s spa now).2.1.achievements))) := by
  have hid := reconciled_title_id host s spa now
  have hself := GetTitle_UpdateTitle_self s.dash_gpd_ (reconciled host s spa now).1
  rw [hid] at hself
  rcases (SetTitleSpaData_frame host s spa now).2.1 with h | ⟨hw, h⟩
  · rw [h]; exact Or.inl hself
  · rw [h]
    unfold syncedDash
    by_cases ht : spa.title_id = kDashboardID
    · simp only [ht, if_true]
      rw [ht] at hself
      exact Or.inl hself
    · simp only [ht, if_false, hself]
      refine Or.inr ⟨hw, ht, ?_⟩
      have := GetTitle_UpdateTitle_self
        (s.dash_gpd_.UpdateTitle (reconciled host s spa now).1)
        (withTally (reconciled host s spa now).1
          (tally (reconciled host s spa now).2.1.achievements))
      rw [show (withTally (reconciled host s spa now).1
          (tally (reconciled host s spa now).2.1.achievements)).title_id = spa.title_id
        from hid] at this
      simpa using this

/-- Claim C6. Reconciliation idempotence. For every profile and declared
catalogue, after `SetTitleSpaData` has run once, running it again with the
same catalogue leaves the map of per-title collections unchanged (so no
achievement is added or duplicated), keeps the account and the active title,
and changes the dashboard collection only by replacing the title's summary
with a copy whose `last_played` is the new time: `achievements_possible`,
`gamerscore_total` and the earned counters keep their values. -/
theorem reconcile_idempotent (host : Host) (s : UserProfile) (spa : SpaFile)
    (now1 now2 : Nat) :
    (SetTitleSpaData host (SetTitleSpaData host s spa now1) spa now2).title_gpds_ =
      (SetTitleSpaData host s spa now1).title_gpds_ ∧
    (SetTitleSpaData host (SetTitleSpaData host s spa now1) spa now2).account_ =
      (SetTitleSpaData host s spa now1).account_ ∧
    (SetTitleSpaData host (SetTitleSpaData host s spa now1) spa now2).curr_gpd_ =
      (SetTitleSpaData host s spa now1).curr_gpd_ ∧
    (SetTitleSpaData host (SetTitleSpaData host s spa now1) spa now2).curr_title_id_ =
      (SetTitleSpaData host s spa now1).curr_title_id_ ∧
    ∃ ti, (SetTitleSpaData host s spa now1).dash_gpd_.GetTitle spa.title_id = some ti ∧
      (SetTitleSpaData host (SetTitleSpaData host s spa now1) spa now2).dash_gpd_ =
        (SetTitleSpaData host s spa now1).dash_gpd_.UpdateTitle
          { ti with last_played := now2 } ∧
      (SetTitleSpaData host (SetTitleSpaData host s spa now1) spa now2).dash_gpd_.GetTitle
        spa.title_id = some { ti with last_played := now2 } := by
  obtain ⟨a1, -, -, a4, a5, -⟩ := SetTitleSpaData_frame host s spa now1
  have hfind : findGpd (SetTitleSpaData host s spa now1).title_gpds_ spa.title_id =
      some (reconciled host s spa now1).2.1 := by
    rw [a1, findGpd_storeGpd_self]
  have hpres := reconciled_declared_present host s spa now1
  obtain ⟨ti, hti⟩ : ∃ ti, (SetTitleSpaData host s spa now1).dash_gpd_.GetTitle spa.title_id
      = some ti := by
    rcases SetTitleSpaData_summary host s spa now1 with h | ⟨-, -, h⟩
    · exact ⟨_, h⟩
    · exact ⟨_, h⟩
  have hrec := reconciled_noop host (SetTitleSpaData host s spa now1) spa now2 _ ti hfind hti hpres
  obtain ⟨b1, b2, b3, b4, b5, -⟩ :=
    SetTitleSpaData_frame host (SetTitleSpaData host s spa now1) spa now2
  rw [hrec] at b1 b2
  simp only [Bool.false_eq_true, false_and, or_false] at b2
  refine ⟨?_, b3, by rw [b4, a4], by rw [b5, a5], ti, hti, b2, ?_⟩
  · rw [b1, storeGpd_of_findGpd _ _ _ hfind]
  · rw [b2]
    have hid := GetTitle_title_id _ _ _ hti
    have := GetTitle_UpdateTitle_self (SetTitleSpaData host s spa now1).dash_gpd_
      { ti with last_played := now2 }
    simpa [hid] using this

theorem filter_unlocked_of_locked (l : List Achievement)
    (h : ∀ a ∈ l, a.unlocked = false) : (l.filter fun a => a.unlocked) = [] := by
  rw [List.filter_eq_nil_iff]
  intro a ha
  simp [h a ha]

theorem tally_earned_append_locked (l added : List Achievement)
    (h : ∀ a ∈ added, a.unlocked = false) :
    (tally (l ++ added)).num_ach_earned = (tally l).num_ach_earned ∧
    (tally (l ++ added)).gamerscore_earned = (tally l).gamerscore_earned := by
  obtain ⟨-, -, e1, e2⟩ := tally_eq (l ++ added)
  obtain ⟨-, -, e3, e4⟩ := tally_eq l
  rw [e1, e2, e3, e4, List.filter_append, filter_unlocked_of_locked added h, List.append_nil]
  exact ⟨rfl, rfl⟩

/-- Claim C3, amended. New-title reconciliation. For every title id without a
per-title collection and every declared catalogue whose achievement ids are
pairwise distinct and whose achievements are all locked, `SetTitleSpaData`
leaves a collection for the title holding exactly the declared achievements,
and a summary for the title with `achievements_possible` the number of
declared achievements and `gamerscore_total` the sum of their gamerscore
values (both as 32-bit values), earned counters 0 and `last_played` the
current time. -/
theorem new_title_reconciled (host : Host) (s : UserProfile) (spa : SpaFile) (now : Nat)
    (hnew : findGpd s.title_gpds_ spa.title_id = none)
    (hnd : (spa.achievements.map fun a => a.id).Nodup)
    (hlocked : ∀ a ∈ spa.achievements, a.unlocked = false) :
    ∃ g ti,
      findGpd (SetTitleSpaData host s spa now).title_gpds_ spa.title_id = some g ∧
      g.achievements = spa.achievements ∧
      (SetTitleSpaData host s spa now).dash_gpd_.GetTitle spa.title_id = some ti ∧
      ti.achievements_possible = u32 spa.achievements.length ∧
      ti.gamerscore_total = u32 (gamerscoreSum spa.achievements) ∧
      ti.achievements_earned = 0 ∧ ti.gamerscore_earned = 0 ∧ ti.last_played = now := by
  obtain ⟨r1, r2, -⟩ := reconciled_new host s spa now hnew
  have hG : (reconciled host s spa now).2.1.achievements = spa.achievements := by
    rw [r2, UpdateAchievement_fold_distinct _ _ (by intro a _; rfl) hnd]
    rfl
  obtain ⟨c1, c2⟩ := create_fold_counts spa.achievements
    ({ title_name := spa.title_name, title_id := spa.title_id, last_played := now },
     { title_id := spa.title_id }) (by norm_num) (by norm_num)
  obtain ⟨-, -, i3, i4, i5⟩ := create_fold_info spa.achievements
    ({ title_name := spa.title_name, title_id := spa.title_id, last_played := now },
     { title_id := spa.title_id })
  rw [← r1] at c1 c2 i3 i4 i5
  simp only [Nat.zero_add] at c1 c2
  have hfind : findGpd (SetTitleSpaData host s spa now).title_gpds_ spa.title_id =
      some (reconciled host s spa now).2.1 := by
    rw [(SetTitleSpaData_frame host s spa now).1, findGpd_storeGpd_self]
  rcases SetTitleSpaData_summary host s spa now with h | ⟨-, -, h⟩
  · exact ⟨_, _, hfind, hG, h, c1, c2, i3, i4, i5⟩
  · refine ⟨_, _, hfind, hG, h, ?_, ?_, ?_, ?_, i5⟩
    · rw [hG]; exact (tally_eq _).1
    · rw [hG]; exact (tally_eq _).2.1
    · rw [hG]
      show (tally spa.achievements).num_ach_earned = 0
      rw [(tally_eq _).2.2.1, filter_unlocked_of_locked _ hlocked]; rfl
    · rw [hG]
      show (tally spa.achievements).gamerscore_earned = 0
      rw [(tally_eq _).2.2.2, filter_unlocked_of_locked _ hlocked]; rfl

/-- Witness for `new_title_reconciled`: title 0x1234 declared with
achievements 1 (10 G) and 2 (20 G) on a blank profile. -/
theorem new_title_reconciled_witness :
    findGpd blankProfile.title_gpds_ spaTwo.title_id = none ∧
    ∃ g ti,
      findGpd (SetTitleSpaData okHost blankProfile spaTwo 7).title_gpds_ spaTwo.title_id
        = some g ∧
      g.achievements = spaTwo.achievements ∧
      (SetTitleSpaData okHost blankProfile spaTwo 7).dash_gpd_.GetTitle spaTwo.title_id
        = some ti ∧
      ti.achievements_possible = u32 spaTwo.achievements.length ∧
      ti.gamerscore_total = u32 (gamerscoreSum spaTwo.achievements) ∧
      ti.achievements_earned = 0 ∧ ti.gamerscore_earned = 0 ∧ ti.last_played = 7 :=
  ⟨rfl, new_title_reconciled okHost blankProfile spaTwo 7 rfl (by decide) (by decide)⟩

/-- Counterexample to C3 as stated: the catalogue `spaUnlocked` has distinct
ids and title 0x1234 has no collection, yet after `SetTitleSpaData` the
summary counts one earned achievement and 10 earned gamerscore, because the
successful write of the new collection recomputes the summary from it. -/
theorem new_title_earned_counterexample :
    findGpd blankProfile.title_gpds_ spaUnlocked.title_id = none ∧
    (spaUnlocked.achievements.map fun a => a.id).Nodup ∧
    ((SetTitleSpaData okHost blankProfile spaUnlocked 7).dash_gpd_.GetTitle
        spaUnlocked.title_id).map (fun ti => (ti.achievements_earned, ti.gamerscore_earned))
      = some (1, 10) := by
  decide

theorem gamerscoreSum_append (l1 l2 : List Achievement) :
    gamerscoreSum (l1 ++ l2) = gamerscoreSum l1 + gamerscoreSum l2 := by
  simp [gamerscoreSum]

/-- Claim C4, amended. Catalogue growth. For every title that has a per-title
collection `g` and a summary whose `achievements_possible` and
`gamerscore_total` are the count and the gamerscore sum of `g` (as 32-bit
values), and every declared catalogue, `SetTitleSpaData` appends to the
collection exactly the declared achievements whose id was absent from it, each
id once, and the summary afterwards has `achievements_possible` raised by the
number of achievements added and `gamerscore_total` raised by the sum of their
gamerscore values (modulo `2 ^ 32`). -/
theorem catalogue_growth (host : Host) (s : UserProfile) (spa : SpaFile) (now : Nat)
    (g : GpdFile) (ti : TitlePlayed)
    (hg : findGpd s.title_gpds_ spa.title_id = some g)
    (hti : s.dash_gpd_.GetTitle spa.title_id = some ti)
    (hposs : ti.achievements_possible = u32 g.achievements.length)
    (htot : ti.gamerscore_total = u32 (gamerscoreSum g.achievements)) :
    ∃ added ti',
      findGpd (SetTitleSpaData host s spa now).title_gpds_ spa.title_id =
        some { g with achievements := g.achievements ++ added } ∧
      added.Sublist spa.achievements ∧
      (∀ a ∈ added, g.GetAchievement a.id = none) ∧
      (added.map fun a => a.id).Nodup ∧
      (∀ a ∈ spa.achievements, g.GetAchievement a.id = none →
        a.id ∈ added.map fun a => a.id) ∧
      (SetTitleSpaData host s spa now).dash_gpd_.GetTitle spa.title_id = some ti' ∧
      ti'.achievements_possible = u32 (ti.achievements_possible + added.length) ∧
      ti'.gamerscore_total = u32 (ti.gamerscore_total + gamerscoreSum added) := by
  obtain ⟨e1, -, -, -, e5, -⟩ := reconciled_existing host s spa now g hg
  obtain ⟨-, -, -, ecount⟩ := e5 ti hti
  obtain ⟨c1, c2⟩ := ecount (by rw [hposs]; exact u32_lt _) (by rw [htot]; exact u32_lt _)
  have hfind : findGpd (SetTitleSpaData host s spa now).title_gpds_ spa.title_id =
      some { g with achievements := g.achievements ++ fresh g.achievements spa.achievements } := by
    rw [(SetTitleSpaData_frame host s spa now).1, findGpd_storeGpd_self, e1]
  have hsum : ∀ ti', (SetTitleSpaData host s spa now).dash_gpd_.GetTitle spa.title_id = some ti' →
      ti'.achievements_possible = (reconciled host s spa now).1.achievements_possible →
      ti'.gamerscore_total = (reconciled host s spa now).1.gamerscore_total →
      ∃ added ti',
      findGpd (SetTitleSpaData host s spa now).title_gpds_ spa.title_id =
        some { g with achievements := g.achievements ++ added } ∧
      added.Sublist spa.achievements ∧
      (∀ a ∈ added, g.GetAchievement a.id = none) ∧
      (added.map fun a => a.id).Nodup ∧
      (∀ a ∈ spa.achievements, g.GetAchievement a.id = none →
        a.id ∈ added.map fun a => a.id) ∧
      (SetTitleSpaData host s spa now).dash_gpd_.GetTitle spa.title_id = some ti' ∧
      ti'.achievements_possible = u32 (ti.achievements_possible + added.length) ∧
      ti'.gamerscore_total = u32 (ti.gamerscore_total + gamerscoreSum added) := by
    intro ti' h hp hgs
    exact ⟨fresh g.achievements spa.achievements, ti', hfind, fresh_sublist _ _,
      fresh_absent _ _, fresh_nodup _ _, fresh_complete _ _, h, hp.trans c1, hgs.trans c2⟩
  rcases SetTitleSpaData_summary host s spa now with h | ⟨-, -, h⟩
  · exact hsum _ h rfl rfl
  · apply hsum _ h
    · show (tally (reconciled host s spa now).2.1.achievements).num_ach_total = _
      rw [(tally_eq _).1, e1, c1, hposs]
      simp only [List.length_append, u32_add_left]
    · show (tally (reconciled host s spa now).2.1.achievements).gamerscore_total = _
      rw [(tally_eq _).2.1, e1, c2, htot]
      simp only [gamerscoreSum_append, u32_add_left]

/-- Witness for `catalogue_growth`: the collection holds achievement 1 (10 G),
the catalogue declares achievements 1 (10 G) and 2 (5 G). -/
theorem catalogue_growth_witness :
    findGpd playedProfile.title_gpds_ spaGrow.title_id = some gpdOne ∧
    playedProfile.dash_gpd_.GetTitle spaGrow.title_id = some summaryOne ∧
    ∃ added ti',
      findGpd (SetTitleSpaData okHost playedProfile spaGrow 7).title_gpds_ spaGrow.title_id =
        some { gpdOne with achievements := gpdOne.achievements ++ added } ∧
      added.Sublist spaGrow.achievements ∧
      (∀ a ∈ added, gpdOne.GetAchievement a.id = none) ∧
      (added.map fun a => a.id).Nodup ∧
      (∀ a ∈ spaGrow.achievements, gpdOne.GetAchievement a.id = none →
        a.id ∈ added.map fun a => a.id) ∧
      (SetTitleSpaData okHost playedProfile spaGrow 7).dash_gpd_.GetTitle spaGrow.title_id
        = some ti' ∧
      ti'.achievements_possible = u32 (summaryOne.achievements_possible + added.length) ∧
      ti'.gamerscore_total = u32 (summaryOne.gamerscore_total + gamerscoreSum added) :=
  ⟨rfl, rfl, catalogue_growth okHost playedProfile spaGrow 7 gpdOne summaryOne rfl rfl
    (by decide) (by decide)⟩

/-- Counterexample to C4 as stated: title 0x1234 has a collection (one
achievement, 10 G) and a summary (5 possible, 100 G). The catalogue adds
achievement 2 (5 G) only, and the summary ends at 2 possible and 15 G, not at
5 + 1 and 100 + 5: the write of the grown collection recomputes the summary
from the collection. -/
theorem catalogue_growth_counterexample :
    findGpd skewedProfile.title_gpds_ spaGrow.title_id = some gpdOne ∧
    skewedProfile.dash_gpd_.GetTitle spaGrow.title_id = some skewedSummary ∧
    findGpd (SetTitleSpaData okHost skewedProfile spaGrow 7).title_gpds_ spaGrow.title_id =
      some { gpdOne with achievements := gpdOne.achievements ++ [{ id := 2, gamerscore := 5 }] } ∧
    ((SetTitleSpaData okHost skewedProfile spaGrow 7).dash_gpd_.GetTitle
        spaGrow.title_id).map (fun ti => (ti.achievements_possible, ti.gamerscore_total))
      = some (2, 15) ∧
    (2, 15) ≠ (skewedSummary.achievements_possible + 1, skewedSummary.gamerscore_total + 5) := by
  decide

/-- Claim C7, amended. Earned counters do not decrease. For every title that
has a per-title collection `g` and a summary whose earned counters do not
exceed the ones `UpdateGpd` derives from `g`, and every declared catalogue
whose achievements are all locked, the summary after `SetTitleSpaData` has
`achievements_earned` and `gamerscore_earned` at least as large as before;
the condition on the summary holds again afterwards, so the same is true
along any sequence of such calls. -/
theorem earned_monotone (host : Host) (s : UserProfile) (spa : SpaFile) (now : Nat)
    (g : GpdFile) (ti : TitlePlayed)
    (hg : findGpd s.title_gpds_ spa.title_id = some g)
    (hti : s.dash_gpd_.GetTitle spa.title_id = some ti)
    (he : ti.achievements_earned ≤ (tally g.achievements).num_ach_earned)
    (hge : ti.gamerscore_earned ≤ (tally g.achievements).gamerscore_earned)
    (hlocked : ∀ a ∈ spa.achievements, a.unlocked = false) :
    ∃ g' ti',
      findGpd (SetTitleSpaData host s spa now).title_gpds_ spa.title_id = some g' ∧
      (SetTitleSpaData host s spa now).dash_gpd_.GetTitle spa.title_id = some ti' ∧
      ti.achievements_earned ≤ ti'.achievements_earned ∧
      ti.gamerscore_earned ≤ ti'.gamerscore_earned ∧
      ti'.achievements_earned ≤ (tally g'.achievements).num_ach_earned ∧
      ti'.gamerscore_earned ≤ (tally g'.achievements).gamerscore_earned := by
  obtain ⟨e1, -, -, -, e5, -⟩ := reconciled_existing host s spa now g hg
  obtain ⟨-, k1, k2, -⟩ := e5 ti hti
  have hfind : findGpd (SetTitleSpaData host s spa now).title_gpds_ spa.title_id =
      some (reconciled host s spa now).2.1 := by
    rw [(SetTitleSpaData_frame host s spa now).1, findGpd_storeGpd_self]
  have hfl : ∀ a ∈ fresh g.achievements spa.achievements, a.unlocked = false :=
    fun a ha => hlocked a ((fresh_sublist _ _).subset ha)
  obtain ⟨t1, t2⟩ := tally_earned_append_locked g.achievements _ hfl
  have hG : (reconciled host s spa now).2.1.achievements =
      g.achievements ++ fresh g.achievements spa.achievements := by rw [e1]
  rw [← hG] at t1 t2
  rcases SetTitleSpaData_summary host s spa now with h | ⟨-, -, h⟩
  · refine ⟨_, _, hfind, h, by rw [k1], by rw [k2], ?_, ?_⟩
    · rw [k1, t1]; exact he
    · rw [k2, t2]; exact hge
  · refine ⟨_, _, hfind, h, ?_, ?_, le_refl _, le_refl _⟩
    · show _ ≤ (tally (reconciled host s spa now).2.1.achievements).num_ach_earned
      rw [t1]; exact he
    · show _ ≤ (tally (reconciled host s spa now).2.1.achievements).gamerscore_earned
      rw [t2]; exact hge

/-- Witness for `earned_monotone`: the played profile, whose summary matches
its collection, reconciled with a catalogue of locked achievements. -/
theorem earned_monotone_witness :
    findGpd playedProfile.title_gpds_ spaGrow.title_id = some gpdOne ∧
    playedProfile.dash_gpd_.GetTitle spaGrow.title_id = some summaryOne ∧
    ∃ g' ti',
      findGpd (SetTitleSpaData okHost playedProfile spaGrow 7).title_gpds_ spaGrow.title_id
        = some g' ∧
      (SetTitleSpaData okHost playedProfile spaGrow 7).dash_gpd_.GetTitle spaGrow.title_id
        = some ti' ∧
      summaryOne.achievements_earned ≤ ti'.achievements_earned ∧
      summaryOne.gamerscore_earned ≤ ti'.gamerscore_earned ∧
      ti'.achievements_earned ≤ (tally g'.achievements).num_ach_earned ∧
      ti'.gamerscore_earned ≤ (tally g'.achievements).gamerscore_earned :=
  ⟨rfl, rfl, earned_monotone okHost playedProfile spaGrow 7 gpdOne summaryOne rfl rfl
    (by decide) (by decide) (by decide)⟩

/-- Counterexample to C7 as stated: the dashboard lists title 0x1234 with one
earned achievement and 10 earned gamerscore, and the title has no collection
in memory (its file was skipped while loading). `SetTitleSpaData` takes the
new-title path and stores a summary with both earned counters 0. -/
theorem earned_reset_counterexample :
    findGpd orphanProfile.title_gpds_ spaGrow.title_id = none ∧
    (orphanProfile.dash_gpd_.GetTitle spaGrow.title_id).map
        (fun ti => (ti.achievements_earned, ti.gamerscore_earned)) = some (1, 10) ∧
    ((SetTitleSpaData okHost orphanProfile spaGrow 7).dash_gpd_.GetTitle
        spaGrow.title_id).map (fun ti => (ti.achievements_earned, ti.gamerscore_earned))
      = some (0, 0) := by
  decide

theorem SummaryBound_UpdateTitle (d : GpdFile) (x : TitlePlayed) (hd : SummaryBound d)
    (hx : x.achievements_earned ≤ x.achievements_possible ∧
      x.gamerscore_earned ≤ x.gamerscore_total) : SummaryBound (d.UpdateTitle x) := by
  intro ti hti
  rcases mem_upsert _ _ _ _ hti with h | h
  · rw [h]; exact hx
  · exact hd ti h

theorem gamerscoreSum_sublist_le {l1 l2 : List Achievement} (h : l1.Sublist l2) :
    gamerscoreSum l1 ≤ gamerscoreSum l2 := by
  induction h with
  | slnil => exact le_refl _
  | cons a _ ih =>
    simp only [gamerscoreSum, List.map_cons, List.sum_cons] at ih ⊢
    omega
  | cons₂ a _ ih =>
    simp only [gamerscoreSum, List.map_cons, List.sum_cons] at ih ⊢
    omega

theorem withTally_bound (ti : TitlePlayed) (l : List Achievement)
    (hlen : l.length < 2 ^ 32) (hsum : gamerscoreSum l < 2 ^ 32) :
    (withTally ti (tally l)).achievements_earned ≤ (withTally ti (tally l)).achievements_possible ∧
    (withTally ti (tally l)).gamerscore_earned ≤ (withTally ti (tally l)).gamerscore_total := by
  obtain ⟨e1, e2, e3, e4⟩ := tally_eq l
  have hsub : (l.filter fun a => a.unlocked).Sublist l := List.filter_sublist l
  have h1 := hsub.length_le
  have h2 := gamerscoreSum_sublist_le hsub
  show (tally l).num_ach_earned ≤ (tally l).num_ach_total ∧
    (tally l).gamerscore_earned ≤ (tally l).gamerscore_total
  rw [e1, e2, e3, e4, u32_of_lt hlen, u32_of_lt hsum, u32_of_lt (by omega),
    u32_of_lt (by omega)]
  exact ⟨h1, h2⟩

theorem SummaryBound_syncedDash (d : GpdFile) (t : Nat) (g : GpdFile) (hd : SummaryBound d)
    (hlen : g.achievements.length < 2 ^ 32) (hsum : gamerscoreSum g.achievements < 2 ^ 32) :
    SummaryBound (syncedDash d t g) := by
  unfold syncedDash
  split_ifs
  · exact hd
  · cases d.GetTitle t with
    | none => exact hd
    | some ti => exact SummaryBound_UpdateTitle d _ hd (withTally_bound ti _ hlen hsum)

/-- Claim C8, amended. Summary bound invariant. If every summary of the
dashboard collection has `achievements_earned ≤ achievements_possible` and
`gamerscore_earned ≤ gamerscore_total`, the same holds after
`SetTitleSpaData` and after `UpdateGpd`, provided the 32-bit counters do not
wrap: the achievement count and the gamerscore sum of the collection together
with the declared catalogue, the title's summary counters increased by the
catalogue, and the collection handed to `UpdateGpd` all stay below `2 ^ 32`. -/
theorem summary_bound_preserved (host : Host) (s : UserProfile) (spa : SpaFile) (now : Nat)
    (t : Nat) (k : GpdKind) (gpd_data : GpdFile)
    (hinv : SummaryBound s.dash_gpd_) :
    ((spa.achievements.length < 2 ^ 32 ∧ gamerscoreSum spa.achievements < 2 ^ 32) →
      (∀ g, findGpd s.title_gpds_ spa.title_id = some g →
        g.achievements.length + spa.achievements.length < 2 ^ 32 ∧
        gamerscoreSum g.achievements + gamerscoreSum spa.achievements < 2 ^ 32) →
      (∀ ti, s.dash_gpd_.GetTitle spa.title_id = some ti →
        ti.achievements_possible + spa.achievements.length < 2 ^ 32 ∧
        ti.gamerscore_total + gamerscoreSum spa.achievements < 2 ^ 32) →
      SummaryBound (SetTitleSpaData host s spa now).dash_gpd_) ∧
    ((gpd_data.achievements.length < 2 ^ 32 ∧
        gamerscoreSum gpd_data.achievements < 2 ^ 32) →
      SummaryBound (UpdateGpd host s t k gpd_data).2.dash_gpd_) := by
  constructor
  · intro hspa hcoll hsumm
    -- the summary computed by the loops is bounded
    have hTI : (reconciled host s spa now).1.achievements_earned ≤
          (reconciled host s spa now).1.achievements_possible ∧
        (reconciled host s spa now).1.gamerscore_earned ≤
          (reconciled host s spa now).1.gamerscore_total := by
      cases hf : findGpd s.title_gpds_ spa.title_id with
      | none =>
        obtain ⟨r1, -, -⟩ := reconciled_new host s spa now hf
        obtain ⟨-, -, i3, i4, -⟩ := create_fold_info spa.achievements
          ({ title_name := spa.title_name, title_id := spa.title_id, last_played := now },
           { title_id := spa.title_id })
        rw [← r1] at i3 i4
        rw [i3, i4]
        exact ⟨Nat.zero_le _, Nat.zero_le _⟩
      | some g =>
        obtain ⟨-, -, -, -, e5, e6⟩ := reconciled_existing host s spa now g hf
        cases hget : s.dash_gpd_.GetTitle spa.title_id with
        | none =>
          obtain ⟨z1, z2⟩ := e6 hget
          rw [z1, z2]
          exact ⟨Nat.zero_le _, Nat.zero_le _⟩
        | some ti =>
          obtain ⟨-, k1, k2, kc⟩ := e5 ti hget
          obtain ⟨b1, b2⟩ := hinv ti (GetTitle_mem _ _ _ hget)
          obtain ⟨o1, o2⟩ := hsumm ti hget
          obtain ⟨c1, c2⟩ := kc (by omega) (by omega)
          have hsub := fresh_sublist g.achievements spa.achievements
          have hl := hsub.length_le
          have hs := gamerscoreSum_sublist_le hsub
          rw [k1, k2, c1, c2, u32_of_lt (by omega), u32_of_lt (by omega)]
          constructor <;> omega
    -- the collection handed to the title write does not overflow the tally
    have hG : (reconciled host s spa now).2.1.achievements.length < 2 ^ 32 ∧
        gamerscoreSum (reconciled host s spa now).2.1.achievements < 2 ^ 32 := by
      cases hf : findGpd s.title_gpds_ spa.title_id with
      | none =>
        obtain ⟨-, r2, -⟩ := reconciled_new host s spa now hf
        obtain ⟨z1, z2⟩ := UpdateAchievement_fold_size spa.achievements
          { title_id := spa.title_id }
        rw [r2]
        simp only [List.length_nil, Nat.zero_add, gamerscoreSum, List.map_nil,
          List.sum_nil] at z1 z2 ⊢
        simp only [gamerscoreSum] at hspa
        constructor <;> omega
      | some g =>
        obtain ⟨e1, -⟩ := reconciled_existing host s spa now g hf
        obtain ⟨o1, o2⟩ := hcoll g hf
        have hsub := fresh_sublist g.achievements spa.achievements
        have hl := hsub.length_le
        have hs := gamerscoreSum_sublist_le hsub
        rw [e1]
        simp only [List.length_append, gamerscoreSum_append]
        constructor <;> omega
    have hD := SummaryBound_UpdateTitle s.dash_gpd_ _ hinv hTI
    rcases (SetTitleSpaData_frame host s spa now).2.1 with h | ⟨-, h⟩
    · rw [h]; exact hD
    · rw [h]; exact SummaryBound_syncedDash _ _ _ hD hG.1 hG.2
  · intro hdata
    rcases (UpdateGpd_frame host s t k gpd_data).1 with h | h
    · rw [h]; exact hinv
    · rw [h]; exact SummaryBound_syncedDash _ _ _ hinv hdata.1 hdata.2

/-- Witness for `summary_bound_preserved`: the played profile, the growing
catalogue and a write of the existing collection. -/
theorem summary_bound_preserved_witness :
    SummaryBound playedProfile.dash_gpd_ ∧
    SummaryBound (SetTitleSpaData okHost playedProfile spaGrow 7).dash_gpd_ ∧
    SummaryBound (UpdateGpd okHost playedProfile 0x1234 GpdKind.title gpdOne).2.dash_gpd_ :=
  ⟨by decide,
   (summary_bound_preserved okHost playedProfile spaGrow 7 0x1234 GpdKind.title gpdOne
      (by decide)).1 (by decide)
    (by
      intro g hg
      have h2 : findGpd playedProfile.title_gpds_ spaGrow.title_id = some gpdOne := rfl
      rw [h2] at hg
      rw [← Option.some.inj hg]
      decide)
    (by
      intro ti hti
      have h2 : playedProfile.dash_gpd_.GetTitle spaGrow.title_id = some summaryOne := rfl
      rw [h2] at hti
      rw [← Option.some.inj hti]
      decide),
   (summary_bound_preserved okHost playedProfile spaGrow 7 0x1234 GpdKind.title gpdOne
      (by decide)).2 (by decide)⟩

/-- Counterexample to C8 as stated. Every summary of `richProfile` and of
`playedProfile` satisfies the bound. After `SetTitleSpaData` with a catalogue
adding a 5 G achievement, the summary of `richProfile` has
`gamerscore_total = (2 ^ 32 - 1 + 5) mod 2 ^ 32 = 4` below
`gamerscore_earned = 2 ^ 32 - 1`; after `UpdateGpd` with `overflowGpd` the
summary of `playedProfile` has `gamerscore_total = 0` below
`gamerscore_earned = 2 ^ 32 - 1`. -/
theorem summary_bound_counterexample :
    SummaryBound richProfile.dash_gpd_ ∧
    ¬ SummaryBound (SetTitleSpaData okHost richProfile spaGrow 7).dash_gpd_ ∧
    SummaryBound playedProfile.dash_gpd_ ∧
    ¬ SummaryBound (UpdateGpd okHost playedProfile 0x1234 GpdKind.title overflowGpd).2.dash_gpd_ := by
  decide

/-! ### Seal / unseal -/

theorem demoUtils_rc4_twice (k d : List Nat) : demoUtils.RC4 k (demoUtils.RC4 k d) = d := by
  simp only [demoUtils, List.map_map]
  conv_rhs => rw [← List.map_id d]
  apply List.map_congr_left
  intro b _
  simp [Nat.xor_assoc]

/-- Claim C1. Seal/unseal round trip. For every account record `c` (a byte image
of `sizeof(X_XAMACCOUNTINFO)` bytes) and every key variant for which
`GetXeKey(0x19, devkit)` yields a key, `DecryptAccountFile` applied to the
buffer written by `EncryptAccountFile` for `c` returns `true` and leaves
exactly `c` in the output record, whatever the keyed hash is and for every
cipher that is its own inverse under a fixed key. -/
theorem seal_unseal_roundtrip (cu : CryptoUtils) (lay : AccountLayout)
    (c buf out : List Nat) (devkit : Bool)
    (hkey : (cu.GetXeKey 0x19 devkit).isSome = true)
    (hrc4 : ∀ k d, cu.RC4 k (cu.RC4 k d) = d)
    (hc : c.length = lay.sizeof_acct) :
    DecryptAccountFile cu lay (EncryptAccountFile cu lay c buf devkit) out devkit = (true, c) := by
  obtain ⟨key, hk⟩ := Option.isSome_iff_exists.mp hkey
  have htake : c.take lay.sizeof_acct = c := List.take_of_length_le (by omega)
  simp only [DecryptAccountFile, EncryptAccountFile, hk, htake]
  set enc_data := List.replicate 8 0xFD ++ swap_gamertag lay c with henc
  set data_hash := cu.HmacSha (key.take 0x10) enc_data with hhash
  have hlen_enc : enc_data.length = lay.sizeof_acct + 8 := by
    simp [henc, swap_gamertag_length, hc]
  have hlen_tag : (data_hash.take 0x10).length = 0x10 := by
    simp [List.length_take, cu.hmac_size]
  have hlen_ct : (cu.RC4 ((cu.HmacSha (key.take 0x10) (data_hash.take 0x10)).take 0x10)
      enc_data).length = lay.sizeof_acct + 8 := by
    rw [cu.rc4_size, hlen_enc]
  have h1 : (data_hash.take 0x10 ++ cu.RC4 ((cu.HmacSha (key.take 0x10)
      (data_hash.take 0x10)).take 0x10) enc_data ++
      buf.drop (0x10 + (lay.sizeof_acct + 8))).take 0x10 = data_hash.take 0x10 := by
    rw [List.append_assoc, List.take_append_of_le_length (by omega)]
    exact List.take_of_length_le (by omega)
  have h2 : ((data_hash.take 0x10 ++ cu.RC4 ((cu.HmacSha (key.take 0x10)
      (data_hash.take 0x10)).take 0x10) enc_data ++
      buf.drop (0x10 + (lay.sizeof_acct + 8))).drop 0x10).take (lay.sizeof_acct + 8) =
      cu.RC4 ((cu.HmacSha (key.take 0x10) (data_hash.take 0x10)).take 0x10) enc_data := by
    rw [List.append_assoc, List.drop_append_of_le_length (by omega),
      List.drop_of_length_le (by omega), List.nil_append,
      List.take_append_of_le_length (by omega)]
    exact List.take_of_length_le (by omega)
  rw [h1, h2, hrc4, ← hhash]
  have h3 : (enc_data.drop 8).take lay.sizeof_acct = swap_gamertag lay c := by
    rw [henc, List.drop_append_of_le_length (by simp), List.drop_of_length_le (by simp),
      List.nil_append]
    exact List.take_of_length_le (by rw [swap_gamertag_length]; omega)
  simp [h3, swap_gamertag_involutive]

/-- Witness for `seal_unseal_roundtrip`: the all-zero record under the retail
key of the demo helpers and the platform layout. -/
theorem seal_unseal_roundtrip_witness :
    (demoUtils.GetXeKey 0x19 false).isSome = true ∧
    (List.replicate 0x17C 0).length = xamLayout.sizeof_acct ∧
    DecryptAccountFile demoUtils xamLayout
      (EncryptAccountFile demoUtils xamLayout (List.replicate 0x17C 0) [] false) [] false
      = (true, List.replicate 0x17C 0) :=
  ⟨rfl, List.length_replicate _ _,
    seal_unseal_roundtrip demoUtils xamLayout (List.replicate 0x17C 0) [] [] false
      rfl demoUtils_rc4_twice (List.length_replicate _ _)⟩

/-- Claim C10. Missing root secret. When `GetXeKey(0x19, devkit)` yields no
key, `DecryptAccountFile` returns `false` and leaves the output record as it
was, while `EncryptAccountFile`, whose return type is `void`, hands nothing
back and leaves the output buffer as it was: its caller receives no report
that no blob was written. -/
theorem missing_key_outcome (cu : CryptoUtils) (lay : AccountLayout)
    (data input output buf : List Nat) (devkit : Bool)
    (hkey : cu.GetXeKey 0x19 devkit = none) :
    DecryptAccountFile cu lay data output devkit = (false, output) ∧
    EncryptAccountFile cu lay input buf devkit = buf := by
  simp [DecryptAccountFile, EncryptAccountFile, hkey]

/-- Witness for `missing_key_outcome`: helpers without any key; the buffer
handed to `EncryptAccountFile` already holds the blob sealed for the same
record on a host that has the key, so the silent return cannot be told from a
completed seal. -/
theorem missing_key_outcome_witness :
    noKeyUtils.GetXeKey 0x19 false = none ∧
    DecryptAccountFile noKeyUtils xamLayout [] [1, 2, 3] false = (false, [1, 2, 3]) ∧
    EncryptAccountFile noKeyUtils xamLayout (List.replicate 0x17C 0)
        (EncryptAccountFile demoUtils xamLayout (List.replicate 0x17C 0) [] false) false
      = EncryptAccountFile demoUtils xamLayout (List.replicate 0x17C 0) [] false :=
  ⟨rfl, missing_key_outcome noKeyUtils xamLayout [] (List.replicate 0x17C 0) [1, 2, 3]
    (EncryptAccountFile demoUtils xamLayout (List.replicate 0x17C 0) [] false) false rfl⟩

/-! ### The byte swap, element by element -/

theorem copy_and_swap_getElem_rest (w count : Nat) (bytes : List Nat) (k : Nat)
    (h : count * w ≤ bytes.length) (hk : count * w ≤ k) :
    (copy_and_swap w count bytes)[k]? = bytes[k]? := by
  induction count generalizing bytes k with
  | zero => rfl
  | succ n ih =>
    rw [Nat.succ_mul] at h hk
    have hlen : ((bytes.take w).reverse).length = w := by
      simp only [List.length_reverse, List.length_take]; omega
    simp only [copy_and_swap]
    rw [List.getElem?_append_right (by omega), hlen,
      ih (bytes.drop w) (k - w) (by simp only [List.length_drop]; omega) (by omega),
      List.getElem?_drop]
    congr 1
    omega

theorem copy_and_swap_getElem_swapped (w count : Nat) (bytes : List Nat) (i j : Nat)
    (h : count * w ≤ bytes.length) (hi : i < count) (hj : j < w) :
    (copy_and_swap w count bytes)[i * w + j]? = bytes[i * w + (w - 1 - j)]? := by
  induction count generalizing bytes i with
  | zero => omega
  | succ n ih =>
    rw [Nat.succ_mul] at h
    have hlen : ((bytes.take w).reverse).length = w := by
      simp only [List.length_reverse, List.length_take]; omega
    simp only [copy_and_swap]
    cases i with
    | zero =>
      simp only [Nat.zero_mul, Nat.zero_add]
      rw [List.getElem?_append_left (by omega), List.getElem?_reverse (by
        simp only [List.length_take]; omega), List.length_take,
        List.getElem?_take_of_lt (by omega)]
      congr 1
      omega
    | succ i2 =>
      have e1 : (i2 + 1) * w + j = w + (i2 * w + j) := by rw [Nat.succ_mul]; omega
      have e2 : (i2 + 1) * w + (w - 1 - j) = w + (i2 * w + (w - 1 - j)) := by
        rw [Nat.succ_mul]; omega
      rw [e1, e2, List.getElem?_append_right (by omega), hlen, Nat.add_sub_cancel_left,
        ih (bytes.drop w) i2 (by simp only [List.length_drop]; omega) (by omega),
        List.getElem?_drop]

theorem swap_gamertag_getElem_other (lay : AccountLayout) (acct : List Nat) (k : Nat)
    (h : lay.gamertag_offset + 0x10 * lay.wchar_size ≤ acct.length)
    (hk : k < lay.gamertag_offset ∨ lay.gamertag_offset + 0x10 * lay.wchar_size ≤ k) :
    (swap_gamertag lay acct)[k]? = acct[k]? := by
  unfold swap_gamertag
  have hlen : (acct.take lay.gamertag_offset).length = lay.gamertag_offset := by
    simp only [List.length_take]; omega
  rcases hk with hk | hk
  · rw [List.getElem?_append_left (by omega), List.getElem?_take_of_lt hk]
  · rw [List.getElem?_append_right (by omega), hlen,
      copy_and_swap_getElem_rest _ _ _ _ (by simp only [List.length_drop]; omega) (by omega),
      List.getElem?_drop]
    congr 1
    omega

theorem swap_gamertag_getElem_swapped (lay : AccountLayout) (acct : List Nat) (i j : Nat)
    (h : lay.gamertag_offset + 0x10 * lay.wchar_size ≤ acct.length)
    (hi : i < 0x10) (hj : j < lay.wchar_size) :
    (swap_gamertag lay acct)[lay.gamertag_offset + (i * lay.wchar_size + j)]? =
      acct[lay.gamertag_offset + (i * lay.wchar_size + (lay.wchar_size - 1 - j))]? := by
  unfold swap_gamertag
  have hlen : (acct.take lay.gamertag_offset).length = lay.gamertag_offset := by
    simp only [List.length_take]; omega
  rw [List.getElem?_append_right (by omega), hlen, Nat.add_sub_cancel_left,
    copy_and_swap_getElem_swapped _ _ _ _ _ (by simp only [List.length_drop]; omega) hi hj,
    List.getElem?_drop]

/-- Claim C14. Unseal acceptance criterion. For every blob and key variant
with an available root secret, let `dec_data` be the blob bytes after the
first 16, decrypted with the key derived by hashing the root secret with the
first 16 bytes of the blob. `DecryptAccountFile` returns `true` exactly when
the first 16 bytes of the blob equal the first 16 bytes of the keyed hash of
`dec_data`; in that case the output record is `dec_data` without its 8 byte
confounder, gamertag byte-swapped, and otherwise the output record is left as
it was. Byte by byte, for a blob of full length and a gamertag that lies inside
the record: the output has `sizeof(X_XAMACCOUNTINFO)` bytes, byte `k` of it
outside the gamertag is byte `8 + k` of `dec_data`, and byte `j` of gamertag
element `i` is byte `wchar_size - 1 - j` of that element in `dec_data`. -/
theorem unseal_acceptance (cu : CryptoUtils) (lay : AccountLayout)
    (data output key : List Nat) (devkit : Bool)
    (hkey : cu.GetXeKey 0x19 devkit = some key) :
    ∃ dec_data,
      dec_data = cu.RC4 ((cu.HmacSha (key.take 0x10) (data.take 0x10)).take 0x10)
        ((data.drop 0x10).take (lay.sizeof_acct + 8)) ∧
      ((DecryptAccountFile cu lay data output devkit).1 = true ↔
        data.take 0x10 = (cu.HmacSha (key.take 0x10) dec_data).take 0x10) ∧
      ((DecryptAccountFile cu lay data output devkit).1 = true →
        (DecryptAccountFile cu lay data output devkit).2 =
          swap_gamertag lay ((dec_data.drop 8).take lay.sizeof_acct)) ∧
      ((DecryptAccountFile cu lay data output devkit).1 = false →
        (DecryptAccountFile cu lay data output devkit).2 = output) ∧
      ((DecryptAccountFile cu lay data output devkit).1 = true →
        0x10 + (lay.sizeof_acct + 8) ≤ data.length →
        lay.gamertag_offset + 0x10 * lay.wchar_size ≤ lay.sizeof_acct →
        (DecryptAccountFile cu lay data output devkit).2.length = lay.sizeof_acct ∧
        (∀ k, k < lay.gamertag_offset ∨ lay.gamertag_offset + 0x10 * lay.wchar_size ≤ k →
          (DecryptAccountFile cu lay data output devkit).2[k]? = dec_data[8 + k]?) ∧
        (∀ i j, i < 0x10 → j < lay.wchar_size →
          (DecryptAccountFile cu lay data output devkit).2[lay.gamertag_offset +
              (i * lay.wchar_size + j)]? =
            dec_data[8 + (lay.gamertag_offset +
              (i * lay.wchar_size + (lay.wchar_size - 1 - j)))]?)) := by
  have hd : DecryptAccountFile cu lay data output devkit =
      if data.take 0x10 = (cu.HmacSha (key.take 0x10)
          (cu.RC4 ((cu.HmacSha (key.take 0x10) (data.take 0x10)).take 0x10)
            ((data.drop 0x10).take (lay.sizeof_acct + 8)))).take 0x10 then
        (true, swap_gamertag lay
          (((cu.RC4 ((cu.HmacSha (key.take 0x10) (data.take 0x10)).take 0x10)
            ((data.drop 0x10).take (lay.sizeof_acct + 8))).drop 8).take lay.sizeof_acct))
      else (false, output) := by
    simp only [DecryptAccountFile, hkey]
  refine ⟨_, rfl, ?_⟩
  by_cases h : data.take 0x10 = (cu.HmacSha (key.take 0x10)
      (cu.RC4 ((cu.HmacSha (key.take 0x10) (data.take 0x10)).take 0x10)
        ((data.drop 0x10).take (lay.sizeof_acct + 8)))).take 0x10
  · rw [hd, if_pos h]
    refine ⟨⟨fun _ => h, fun _ => rfl⟩, fun _ => rfl, fun hf => (by cases hf), ?_⟩
    intro _ hlen hlay
    have hdec : (cu.RC4 ((cu.HmacSha (key.take 0x10) (data.take 0x10)).take 0x10)
        ((data.drop 0x10).take (lay.sizeof_acct + 8))).length = lay.sizeof_acct + 8 := by
      rw [cu.rc4_size, List.length_take, List.length_drop]
      omega
    have hrec : ((cu.RC4 ((cu.HmacSha (key.take 0x10) (data.take 0x10)).take 0x10)
        ((data.drop 0x10).take (lay.sizeof_acct + 8))).drop 8).take lay.sizeof_acct =
        (cu.RC4 ((cu.HmacSha (key.take 0x10) (data.take 0x10)).take 0x10)
        ((data.drop 0x10).take (lay.sizeof_acct + 8))).drop 8 :=
      List.take_of_length_le (by rw [List.length_drop, hdec]; omega)
    simp only [hrec]
    have hrlen : ((cu.RC4 ((cu.HmacSha (key.take 0x10) (data.take 0x10)).take 0x10)
        ((data.drop 0x10).take (lay.sizeof_acct + 8))).drop 8).length = lay.sizeof_acct := by
      rw [List.length_drop, hdec]; omega
    refine ⟨by rw [swap_gamertag_length, hrlen], ?_, ?_⟩
    · intro k hk
      rw [swap_gamertag_getElem_other lay _ k (by rw [hrlen]; exact hlay) hk,
        List.getElem?_drop]
    · intro i j hi hj
      rw [swap_gamertag_getElem_swapped lay _ i j (by rw [hrlen]; exact hlay) hi hj,
        List.getElem?_drop]
  · rw [hd, if_neg h]
    exact ⟨⟨fun hf => (by cases hf), fun hc => absurd hc h⟩, fun hf => (by cases hf),
      fun _ => rfl, fun hf => (by cases hf)⟩

set_option maxRecDepth 1000000 in
/-- Witness for `unseal_acceptance`: the blob sealed for `demoAccount` under
the retail key of the demo helpers is accepted; the output is `demoAccount`,
whose gamertag starts with the bytes 8, 9, while the decrypted plaintext holds
them in the order 9, 8. -/
theorem unseal_acceptance_witness :
    demoUtils.GetXeKey 0x19 false = some (List.replicate 0x10 0xA5) ∧
    (DecryptAccountFile demoUtils xamLayout
      (EncryptAccountFile demoUtils xamLayout demoAccount [] false) [] false).1 = true ∧
    0x10 + (xamLayout.sizeof_acct + 8) ≤
      (EncryptAccountFile demoUtils xamLayout demoAccount [] false).length ∧
    xamLayout.gamertag_offset + 0x10 * xamLayout.wchar_size ≤ xamLayout.sizeof_acct ∧
    (DecryptAccountFile demoUtils xamLayout
      (EncryptAccountFile demoUtils xamLayout demoAccount [] false) [] false).2 =
      demoAccount ∧
    (demoAccount[8]?, demoAccount[9]?) = (some 8, some 9) ∧
    ∃ dec_data,
      dec_data = demoUtils.RC4
        ((demoUtils.HmacSha ((List.replicate 0x10 0xA5).take 0x10)
          ((EncryptAccountFile demoUtils xamLayout demoAccount [] false).take 0x10)).take 0x10)
        (((EncryptAccountFile demoUtils xamLayout demoAccount [] false).drop 0x10).take
          (xamLayout.sizeof_acct + 8)) ∧
      (dec_data[8 + 8]?, dec_data[8 + 9]?) = (some 9, some 8) ∧
      ((DecryptAccountFile demoUtils xamLayout
          (EncryptAccountFile demoUtils xamLayout demoAccount [] false) [] false).1 = true ↔
        (EncryptAccountFile demoUtils xamLayout demoAccount [] false).take 0x10 =
          (demoUtils.HmacSha ((List.replicate 0x10 0xA5).take 0x10) dec_data).take 0x10) ∧
      (DecryptAccountFile demoUtils xamLayout
          (EncryptAccountFile demoUtils xamLayout demoAccount [] false) [] false).2.length =
        xamLayout.sizeof_acct ∧
      (∀ i j, i < 0x10 → j < xamLayout.wchar_size →
        (DecryptAccountFile demoUtils xamLayout
          (EncryptAccountFile demoUtils xamLayout demoAccount [] false) [] false).2[
            xamLayout.gamertag_offset + (i * xamLayout.wchar_size + j)]? =
          dec_data[8 + (xamLayout.gamertag_offset +
            (i * xamLayout.wchar_size + (xamLayout.wchar_size - 1 - j)))]?) := by
  have hacc : (DecryptAccountFile demoUtils xamLayout
      (EncryptAccountFile demoUtils xamLayout demoAccount [] false) [] false).1 = true := by
    decide
  have hlen : 0x10 + (xamLayout.sizeof_acct + 8) ≤
      (EncryptAccountFile demoUtils xamLayout demoAccount [] false).length := by decide
  have hlay : xamLayout.gamertag_offset + 0x10 * xamLayout.wchar_size ≤
      xamLayout.sizeof_acct := by decide
  obtain ⟨dec_data, hdec, hiff, -, -, hbytes⟩ :=
    unseal_acceptance demoUtils xamLayout
      (EncryptAccountFile demoUtils xamLayout demoAccount [] false) []
      (List.replicate 0x10 0xA5) false rfl
  obtain ⟨b1, -, b3⟩ := hbytes hacc hlen hlay
  refine ⟨rfl, hacc, hlen, hlay, by decide, by decide, dec_data, hdec, ?_, hiff, b1, b3⟩
  subst hdec
  decide

/-- Claim C19. Seal is deterministic. For every key variant with an available
root secret and every account record, the blob that `EncryptAccountFile`
writes (tag, encrypted confounder, encrypted record: the first
`0x18 + sizeof(X_XAMACCOUNTINFO)` bytes of the output buffer) is the tag of
the fixed confounder of eight `0xFD` bytes followed by the swapped record,
then their encryption under the key derived from the tag; it does not depend
on what the buffer held before, so two seals of the same record with the same
key are byte-identical. -/
theorem seal_deterministic (cu : CryptoUtils) (lay : AccountLayout)
    (c buf1 buf2 key : List Nat) (devkit : Bool)
    (hkey : cu.GetXeKey 0x19 devkit = some key)
    (hc : c.length = lay.sizeof_acct) :
    (EncryptAccountFile cu lay c buf1 devkit).take (0x18 + lay.sizeof_acct) =
      (cu.HmacSha (key.take 0x10) (List.replicate 8 0xFD ++ swap_gamertag lay c)).take 0x10 ++
        cu.RC4 ((cu.HmacSha (key.take 0x10)
            ((cu.HmacSha (key.take 0x10)
              (List.replicate 8 0xFD ++ swap_gamertag lay c)).take 0x10)).take 0x10)
          (List.replicate 8 0xFD ++ swap_gamertag lay c) ∧
    (EncryptAccountFile cu lay c buf1 devkit).take (0x18 + lay.sizeof_acct) =
      (EncryptAccountFile cu lay c buf2 devkit).take (0x18 + lay.sizeof_acct) := by
  have htake : c.take lay.sizeof_acct = c := List.take_of_length_le (by omega)
  have key_fact : ∀ buf : List Nat,
      (EncryptAccountFile cu lay c buf devkit).take (0x18 + lay.sizeof_acct) =
      (cu.HmacSha (key.take 0x10) (List.replicate 8 0xFD ++ swap_gamertag lay c)).take 0x10 ++
        cu.RC4 ((cu.HmacSha (key.take 0x10)
            ((cu.HmacSha (key.take 0x10)
              (List.replicate 8 0xFD ++ swap_gamertag lay c)).take 0x10)).take 0x10)
          (List.replicate 8 0xFD ++ swap_gamertag lay c) := by
    intro buf
    simp only [EncryptAccountFile, hkey, htake]
    apply List.take_left'
    simp only [List.length_append, List.length_take, cu.hmac_size, cu.rc4_size,
      List.length_replicate, swap_gamertag_length, hc]
    omega
  exact ⟨key_fact buf1, (key_fact buf1).trans (key_fact buf2).symm⟩

/-- Witness for `seal_deterministic`: the all-zero record sealed into an empty
buffer and into a buffer of 0x200 bytes. -/
theorem seal_deterministic_witness :
    demoUtils.GetXeKey 0x19 false = some (List.replicate 0x10 0xA5) ∧
    (List.replicate 0x17C 0).length = xamLayout.sizeof_acct ∧
    (EncryptAccountFile demoUtils xamLayout (List.replicate 0x17C 0) [] false).take
        (0x18 + xamLayout.sizeof_acct) =
      (EncryptAccountFile demoUtils xamLayout (List.replicate 0x17C 0)
        (List.replicate 0x200 0x11) false).take (0x18 + xamLayout.sizeof_acct) :=
  ⟨rfl, List.length_replicate _ _,
    (seal_deterministic demoUtils xamLayout (List.replicate 0x17C 0) []
      (List.replicate 0x200 0x11) (List.replicate 0x10 0xA5) false rfl
      (List.length_replicate _ _)).2⟩

/-! ### Lookup and explicit persistence -/

theorem findGpd_storeGpd_other (m : List (Nat × GpdFile)) (t t2 : Nat) (g : GpdFile)
    (h : t ≠ t2) : findGpd (storeGpd m t g) t2 = findGpd m t2 := by
  unfold findGpd storeGpd
  rw [find_upsert_other]
  · simpa using h
  · intro y hy
    simp only [beq_iff_eq] at hy
    simp only [beq_eq_false_iff_ne, ne_eq]
    rw [hy]; exact h

theorem loadTitle_frame (disk : Disk) (s : UserProfile) (title : TitlePlayed) :
    (loadTitle disk s title).account_ = s.account_ ∧
    (loadTitle disk s title).dash_gpd_ = s.dash_gpd_ ∧
    (loadTitle disk s title).curr_gpd_ = s.curr_gpd_ ∧
    (loadTitle disk s title).curr_title_id_ = s.curr_title_id_ := by
  unfold loadTitle
  cases disk.gpd_file title.title_id with
  | none => simp
  | some data =>
    simp only
    split_ifs <;> simp

theorem loadTitle_fold_frame (disk : Disk) (l : List TitlePlayed) (s : UserProfile) :
    (l.foldl (loadTitle disk) s).account_ = s.account_ ∧
    (l.foldl (loadTitle disk) s).dash_gpd_ = s.dash_gpd_ ∧
    (l.foldl (loadTitle disk) s).curr_gpd_ = s.curr_gpd_ ∧
    (l.foldl (loadTitle disk) s).curr_title_id_ = s.curr_title_id_ := by
  induction l generalizing s with
  | nil => simp
  | cons a rest ih =>
    rw [List.foldl_cons]
    obtain ⟨i1, i2, i3, i4⟩ := ih (loadTitle disk s a)
    obtain ⟨j1, j2, j3, j4⟩ := loadTitle_frame disk s a
    exact ⟨i1.trans j1, i2.trans j2, i3.trans j3, i4.trans j4⟩

theorem loadAccount_frame (cu : CryptoUtils) (lay : AccountLayout) (disk : Disk)
    (tmp : List Nat) (s : UserProfile) :
    (loadAccount cu lay disk tmp s).dash_gpd_ = s.dash_gpd_ ∧
    (loadAccount cu lay disk tmp s).title_gpds_ = s.title_gpds_ ∧
    (loadAccount cu lay disk tmp s).curr_gpd_ = s.curr_gpd_ ∧
    (loadAccount cu lay disk tmp s).curr_title_id_ = s.curr_title_id_ := by
  unfold loadAccount
  cases disk.account_file with
  | none => simp
  | some data =>
    simp only
    split_ifs <;> simp

theorem loadGpds_frame (disk : Disk) (s : UserProfile) :
    (loadGpds disk s).account_ = s.account_ ∧
    (loadGpds disk s).curr_gpd_ = s.curr_gpd_ ∧
    (loadGpds disk s).curr_title_id_ = s.curr_title_id_ := by
  unfold loadGpds
  cases disk.gpd_file kDashboardID with
  | none => simp
  | some data =>
    simp only
    obtain ⟨i1, -, i3, i4⟩ := loadTitle_fold_frame disk
      ({ s with dash_gpd_ := (disk.gpd_read s.dash_gpd_ data).2 } :
        UserProfile).dash_gpd_.GetTitles
      { s with dash_gpd_ := (disk.gpd_read s.dash_gpd_ data).2 }
    exact ⟨i1, i3, i4⟩

theorem LoadProfile_curr (cu : CryptoUtils) (lay : AccountLayout) (disk : Disk)
    (tmp : List Nat) (s : UserProfile) :
    (LoadProfile cu lay disk tmp s).curr_gpd_ = s.curr_gpd_ := by
  unfold LoadProfile
  rw [(loadGpds_frame disk _).2.1, (loadAccount_frame cu lay disk tmp s).2.2.1]

/-- Claim C11. Lookup. `GetTitleGpd(-1)` returns `curr_gpd_`, which is null
while no title is active, as in a freshly constructed profile. For any other
title id the returned pointer designates the collection stored for that id and
is null when the id is unknown. After `SetTitleSpaData` for a catalogue with
title id `t`, whatever `t` is, `GetTitleGpd(-1)` and `GetTitleGpd(t)` return
the same pointer, and it designates the collection stored for `t`. -/
theorem title_lookup (host : Host) (s : UserProfile) (spa : SpaFile) (now t : Nat)
    (cu : CryptoUtils) (lay : AccountLayout) (disk : Disk) (raw tmp : List Nat) :
    GetTitleGpd s 0xFFFFFFFF = s.curr_gpd_ ∧
    (s.curr_gpd_ = none → GetTitleGpd s 0xFFFFFFFF = none) ∧
    GetTitleGpd (UserProfile_ctor cu lay disk raw tmp) 0xFFFFFFFF = none ∧
    (t ≠ 0xFFFFFFFF →
      s.deref (GetTitleGpd s t) = findGpd s.title_gpds_ t ∧
      (findGpd s.title_gpds_ t = none → GetTitleGpd s t = none)) ∧
    GetTitleGpd (SetTitleSpaData host s spa now) 0xFFFFFFFF =
      GetTitleGpd (SetTitleSpaData host s spa now) spa.title_id ∧
    GetTitleGpd (SetTitleSpaData host s spa now) spa.title_id = some spa.title_id ∧
    ∃ g, (SetTitleSpaData host s spa now).deref
        (GetTitleGpd (SetTitleSpaData host s spa now) spa.title_id) = some g ∧
      findGpd (SetTitleSpaData host s spa now).title_gpds_ spa.title_id = some g := by
  have h1 : GetTitleGpd s 0xFFFFFFFF = s.curr_gpd_ := by simp [GetTitleGpd]
  obtain ⟨f1, -, -, f4, -, -⟩ := SetTitleSpaData_frame host s spa now
  have hfind : findGpd (SetTitleSpaData host s spa now).title_gpds_ spa.title_id =
      some (reconciled host s spa now).2.1 := by
    rw [f1, findGpd_storeGpd_self]
  have hcur : GetTitleGpd (SetTitleSpaData host s spa now) 0xFFFFFFFF = some spa.title_id := by
    simp [GetTitleGpd, f4]
  have hexp : GetTitleGpd (SetTitleSpaData host s spa now) spa.title_id = some spa.title_id := by
    by_cases ht : spa.title_id = 0xFFFFFFFF
    · rw [ht] at hcur ⊢; exact hcur
    · simp only [GetTitleGpd, ht, if_false, hfind]
  refine ⟨h1, fun h => h1.trans h, ?_, ?_, hcur.trans hexp.symm, hexp, _, ?_, hfind⟩
  · simp only [GetTitleGpd, if_true, UserProfile_ctor]
    rw [LoadProfile_curr]
  · intro ht
    simp only [GetTitleGpd, ht, if_false]
    cases hf : findGpd s.title_gpds_ t with
    | none => simp [UserProfile.deref]
    | some g => simp [UserProfile.deref, hf]
  · rw [hexp]
    simp [UserProfile.deref, hfind]

/-- Witness for `title_lookup`: the played profile, title 0x1234 looked up
before and after reconciliation. -/
theorem title_lookup_witness :
    (0x1234 : Nat) ≠ 0xFFFFFFFF ∧
    playedProfile.deref (GetTitleGpd playedProfile 0x1234) = some gpdOne ∧
    GetTitleGpd playedProfile 0xFFFFFFFF = none ∧
    GetTitleGpd (SetTitleSpaData okHost playedProfile spaGrow 7) 0xFFFFFFFF =
      GetTitleGpd (SetTitleSpaData okHost playedProfile spaGrow 7) spaGrow.title_id :=
  ⟨by decide,
   ((title_lookup okHost playedProfile spaGrow 7 0x1234 demoUtils xamLayout
      ⟨none, fun _ => none, fun g _ => (false, g)⟩ [] []).2.2.2.1 (by decide)).1,
   (title_lookup okHost playedProfile spaGrow 7 0x1234 demoUtils xamLayout
      ⟨none, fun _ => none, fun g _ => (false, g)⟩ [] []).2.1 rfl,
   (title_lookup okHost playedProfile spaGrow 7 0x1234 demoUtils xamLayout
      ⟨none, fun _ => none, fun g _ => (false, g)⟩ [] []).2.2.2.2.1⟩

theorem writeGpd_ok (host : Host) (s : UserProfile) (t : Nat) (k : GpdKind) (g : GpdFile)
    (h1 : host.size_ok s.updates.length g = true)
    (h2 : host.open_ok s.updates.length t = true)
    (h3 : host.write_ok s.updates.length g = true) :
    (writeGpd host s t k g).1 = true ∧
    (writeGpd host s t k g).2.files = (t, g) :: s.files := by
  simp [writeGpd, h1, h2, h3]

theorem syncedDash_other (d : GpdFile) (t t2 : Nat) (g : GpdFile) (h : t2 ≠ t) :
    (syncedDash d t g).GetTitle t2 = d.GetTitle t2 := by
  unfold syncedDash
  split_ifs
  · rfl
  · cases hget : d.GetTitle t with
    | none => rfl
    | some ti =>
      simp only
      apply GetTitle_UpdateTitle_other
      show ti.title_id ≠ t2
      rw [GetTitle_title_id d t ti hget]
      exact fun h2 => h h2.symm

/-- Claim C17, amended. Dashboard synchronisation on persist. For every title id `t`
other than the dashboard id and every collection `g`, if the size query, the
open and the write of `UpdateGpd(t, g)` succeed and the dashboard holds a
summary for `t`, then `UpdateGpd` returns `true` and the summary afterwards is
the old one with `achievements_possible`, `achievements_earned`,
`gamerscore_total`, `gamerscore_earned` replaced by the number of achievements
of `g`, the number of unlocked ones, the gamerscore sum and the gamerscore sum
of the unlocked ones, each reduced modulo `2 ^ 32`; title name and
`last_played` are
those of the old summary and the summaries of other titles are untouched. If
the dashboard holds no summary for `t`, or `t` is the dashboard id, the
dashboard collection is left unchanged whatever the storage does. -/
theorem dashboard_sync (host : Host) (s : UserProfile) (t : Nat) (k : GpdKind) (g : GpdFile) :
    (host.size_ok s.updates.length g = true → host.open_ok s.updates.length t = true →
      host.write_ok s.updates.length g = true → t ≠ kDashboardID →
      ∀ ti, s.dash_gpd_.GetTitle t = some ti →
        (UpdateGpd host s t k g).1 = true ∧
        (UpdateGpd host s t k g).2.dash_gpd_.GetTitle t =
          some { ti with
            achievements_possible := u32 g.achievements.length,
            achievements_earned := u32 (g.achievements.filter fun a => a.unlocked).length,
            gamerscore_total := u32 (gamerscoreSum g.achievements),
            gamerscore_earned :=
              u32 (gamerscoreSum (g.achievements.filter fun a => a.unlocked)) } ∧
        ∀ t2, t2 ≠ t →
          (UpdateGpd host s t k g).2.dash_gpd_.GetTitle t2 = s.dash_gpd_.GetTitle t2) ∧
    ((s.dash_gpd_.GetTitle t = none ∨ t = kDashboardID) →
      (UpdateGpd host s t k g).2.dash_gpd_ = s.dash_gpd_) := by
  constructor
  · intro h1 h2 h3 ht ti hti
    obtain ⟨hw, -⟩ := writeGpd_ok host s t k g h1 h2 h3
    obtain ⟨w1, -⟩ := writeGpd_frame host s t k g
    obtain ⟨y1, -⟩ := syncDashboard_frame host (writeGpd host s t k g).2 t g
    have hdash : (UpdateGpd host s t k g).2.dash_gpd_ = syncedDash s.dash_gpd_ t g := by
      simp only [UpdateGpd, hw, if_true]
      rw [y1, w1]
    have hflag : (UpdateGpd host s t k g).1 = true := by
      simp only [UpdateGpd, hw, if_true]
    refine ⟨hflag, ?_, ?_⟩
    · rw [hdash]
      obtain ⟨e1, e2, e3, e4⟩ := tally_eq g.achievements
      rw [← e1, ← e2, ← e3, ← e4]
      simp only [syncedDash, ht, if_false, hti]
      have := GetTitle_UpdateTitle_self s.dash_gpd_ (withTally ti (tally g.achievements))
      rw [show (withTally ti (tally g.achievements)).title_id = t from
        GetTitle_title_id _ _ ti hti] at this
      exact this
    · intro t2 ht2
      rw [hdash]
      exact syncedDash_other _ _ _ _ ht2
  · intro h
    rcases (UpdateGpd_frame host s t k g).1 with hd | hd
    · exact hd
    · rw [hd]
      unfold syncedDash
      rcases h with h | h
      · simp [h]
      · simp [h]

/-- Witness for `dashboard_sync`: writing a two-achievement collection for
title 0x1234 of the played profile on a host whose storage works. -/
theorem dashboard_sync_witness :
    okHost.size_ok playedProfile.updates.length overflowGpd = true ∧
    (0x1234 : Nat) ≠ kDashboardID ∧
    playedProfile.dash_gpd_.GetTitle 0x1234 = some summaryOne ∧
    (UpdateGpd okHost playedProfile 0x1234 GpdKind.title overflowGpd).1 = true ∧
    (UpdateGpd okHost playedProfile 0x1234 GpdKind.title overflowGpd).2.dash_gpd_.GetTitle
        0x1234 =
      some { summaryOne with
        achievements_possible := u32 overflowGpd.achievements.length,
        achievements_earned := u32 (overflowGpd.achievements.filter fun a => a.unlocked).length,
        gamerscore_total := u32 (gamerscoreSum overflowGpd.achievements),
        gamerscore_earned :=
          u32 (gamerscoreSum (overflowGpd.achievements.filter fun a => a.unlocked)) } :=
  ⟨rfl, by decide, rfl,
   ((dashboard_sync okHost playedProfile 0x1234 GpdKind.title overflowGpd).1 rfl rfl rfl
      (by decide) summaryOne rfl).1,
   ((dashboard_sync okHost playedProfile 0x1234 GpdKind.title overflowGpd).1 rfl rfl rfl
      (by decide) summaryOne rfl).2.1⟩

theorem writeGpd_files_mono (host : Host) (s : UserProfile) (t : Nat) (k : GpdKind)
    (g : GpdFile) (x : Nat × GpdFile) (hx : x ∈ s.files) :
    x ∈ (writeGpd host s t k g).2.files := by
  unfold writeGpd
  simp only
  split_ifs
  · exact hx
  · exact hx
  · exact hx
  · exact List.mem_cons_of_mem _ hx

theorem syncDashboard_files_mono (host : Host) (s : UserProfile) (t : Nat) (g : GpdFile)
    (x : Nat × GpdFile) (hx : x ∈ s.files) : x ∈ (syncDashboard host s t g).files := by
  unfold syncDashboard
  split_ifs
  · cases s.dash_gpd_.GetTitle t with
    | none => exact hx
    | some ti =>
      simp only
      split_ifs
      · exact writeGpd_files_mono host _ _ _ _ x hx
      · exact hx
  · exact hx

/-- Counterexample to C17 as stated: the storage works, title 0x1234 is not the
dashboard id and has a summary, and the gamerscore values of `overflowGpd` add
up to `2 ^ 32`; after `UpdateGpd` the summary holds `gamerscore_total = 0`, the
sum reduced modulo `2 ^ 32`, not the sum. -/
theorem dashboard_sync_counterexample :
    okHost.size_ok playedProfile.updates.length overflowGpd = true ∧
    okHost.open_ok playedProfile.updates.length 0x1234 = true ∧
    okHost.write_ok playedProfile.updates.length overflowGpd = true ∧
    (0x1234 : Nat) ≠ kDashboardID ∧
    playedProfile.dash_gpd_.GetTitle 0x1234 = some summaryOne ∧
    gamerscoreSum overflowGpd.achievements = 2 ^ 32 ∧
    ((UpdateGpd okHost playedProfile 0x1234 GpdKind.title overflowGpd).2.dash_gpd_.GetTitle
        0x1234).map (fun ti => ti.gamerscore_total) = some 0 := by
  decide

theorem GetTitleGpd_eq_some_iff (s : UserProfile) (t c : Nat) (g : GpdFile)
    (ht : t ≠ 0xFFFFFFFF) (hc : findGpd s.title_gpds_ c = some g) :
    GetTitleGpd s t = some c ↔ t = c := by
  simp only [GetTitleGpd, ht, if_false]
  constructor
  · intro h
    cases hf : findGpd s.title_gpds_ t with
    | none => rw [hf] at h; cases h
    | some g2 => rw [hf] at h; exact Option.some.inj h
  · intro h
    subst h
    rw [hc]

/-- Claim C18. Target of `UpdateTitleGpd`. `UpdateTitleGpd(-1)` returns
`false` and changes nothing (no update is attempted, no file written) when
`curr_gpd_` is null or `curr_title_id_` is -1. For every explicit title id
`t`, with `curr_gpd_` pointing at the collection `g` stored under key `c`, the
call is `UpdateGpd(t, g)`: the update it attempts is for file `t` with the
contents of the active collection `g`, which is what gets written under `t`
when the storage works; the pointer `GetTitleGpd(t)` equals `curr_gpd_`
exactly when `t = c`. With a null `curr_gpd_` an explicit id leaves the call
without a collection to write. -/
theorem update_title_target (host : Host) (s : UserProfile) (t : Nat) :
    ((s.curr_gpd_ = none ∨ s.curr_title_id_ = 0xFFFFFFFF) →
      UpdateTitleGpd host s 0xFFFFFFFF = some (false, s)) ∧
    (t ≠ 0xFFFFFFFF → ∀ c g, s.curr_gpd_ = some c → findGpd s.title_gpds_ c = some g →
      UpdateTitleGpd host s t = some (UpdateGpd host s t GpdKind.title g) ∧
      (∃ extra, (UpdateGpd host s t GpdKind.title g).2.updates =
        s.updates ++ ⟨t, GpdKind.title, g⟩ :: extra) ∧
      (host.size_ok s.updates.length g = true → host.open_ok s.updates.length t = true →
        host.write_ok s.updates.length g = true →
        (t, g) ∈ (UpdateGpd host s t GpdKind.title g).2.files) ∧
      (GetTitleGpd s t = s.curr_gpd_ ↔ t = c)) ∧
    (t ≠ 0xFFFFFFFF → s.curr_gpd_ = none → UpdateTitleGpd host s t = none) := by
  refine ⟨?_, ?_, ?_⟩
  · intro h
    simp [UpdateTitleGpd, h]
  · intro ht c g hc hg
    refine ⟨?_, ?_, ?_, ?_⟩
    · simp [UpdateTitleGpd, ht, updateFromCurrent, UserProfile.deref, hc, hg]
    · obtain ⟨-, -, -, -, -, extra, h6, -⟩ := UpdateGpd_frame host s t GpdKind.title g
      exact ⟨extra, h6⟩
    · intro h1 h2 h3
      obtain ⟨hw, hfiles⟩ := writeGpd_ok host s t GpdKind.title g h1 h2 h3
      simp only [UpdateGpd, hw, if_true]
      apply syncDashboard_files_mono
      rw [hfiles]
      exact List.mem_cons_self _ _
    · rw [hc]
      exact GetTitleGpd_eq_some_iff s t c g ht hg
  · intro ht hnone
    simp [UpdateTitleGpd, ht, updateFromCurrent, UserProfile.deref, hnone]

/-- Witness for `update_title_target`: title 0x1234 is active and title
0x5678 has a different collection; `UpdateTitleGpd(0x5678)` writes the
collection of 0x1234 under 0x5678, and `UpdateTitleGpd(-1)` on a blank profile
returns `false`. -/
theorem update_title_target_witness :
    UpdateTitleGpd okHost blankProfile 0xFFFFFFFF = some (false, blankProfile) ∧
    (0x5678 : Nat) ≠ 0xFFFFFFFF ∧
    findGpd twoTitleProfile.title_gpds_ 0x5678 = some gpdOther ∧
    gpdOther ≠ gpdOne ∧
    UpdateTitleGpd okHost twoTitleProfile 0x5678 =
      some (UpdateGpd okHost twoTitleProfile 0x5678 GpdKind.title gpdOne) ∧
    (0x5678, gpdOne) ∈ (UpdateGpd okHost twoTitleProfile 0x5678 GpdKind.title gpdOne).2.files :=
  ⟨(update_title_target okHost blankProfile 0x5678).1 (Or.inl rfl),
   by decide, rfl, by decide,
   ((update_title_target okHost twoTitleProfile 0x5678).2.1 (by decide) 0x1234 gpdOne
      rfl rfl).1,
   ((update_title_target okHost twoTitleProfile 0x5678).2.1 (by decide) 0x1234 gpdOne
      rfl rfl).2.2.1 rfl rfl rfl⟩

/-! ### Recovery of a missing summary -/

theorem mergeStep_true_present (m : Merge) (a : Achievement)
    (hex : (m.title_gpd.achievements.find? fun x => x.id == a.id).isSome = true) :
    mergeStep true m a =
      { m with title_info := { m.title_info with
          achievements_possible := u32 (m.title_info.achievements_possible + 1),
          gamerscore_total := u32 (m.title_info.gamerscore_total + a.gamerscore) } } := by
  unfold mergeStep
  simp [GpdFile.GetAchievement, hex]

theorem merge_fold_counts_always (l : List Achievement) (m : Merge)
    (hp : m.title_info.achievements_possible < 2 ^ 32)
    (hg : m.title_info.gamerscore_total < 2 ^ 32) :
    (l.foldl (mergeStep true) m).title_info =
      { m.title_info with
        achievements_possible := u32 (m.title_info.achievements_possible + l.length),
        gamerscore_total := u32 (m.title_info.gamerscore_total + gamerscoreSum l) } := by
  induction l generalizing m with
  | nil =>
    simp only [List.foldl_nil, List.length_nil, Nat.add_zero, gamerscoreSum, List.map_nil,
      List.sum_nil, u32_of_lt hp, u32_of_lt hg]
  | cons a rest ih =>
    rw [List.foldl_cons]
    have hstep : (mergeStep true m a).title_info = { m.title_info with
          achievements_possible := u32 (m.title_info.achievements_possible + 1),
          gamerscore_total := u32 (m.title_info.gamerscore_total + a.gamerscore) } := by
      by_cases hex : (m.title_gpd.achievements.find? fun x => x.id == a.id).isSome = true
      · rw [mergeStep_true_present m a hex]
      · rw [mergeStep_absent true m a hex]
    rw [ih (mergeStep true m a) (by rw [hstep]; exact u32_lt _) (by rw [hstep]; exact u32_lt _),
      hstep]
    simp only [List.length_cons, gamerscoreSum, List.map_cons, List.sum_cons, u32_add_left]
    congr 2
    · omega
    · omega

theorem reconciled_recovery (host : Host) (s : UserProfile) (spa : SpaFile) (now : Nat)
    (g : GpdFile) (hg : findGpd s.title_gpds_ spa.title_id = some g)
    (hnone : s.dash_gpd_.GetTitle spa.title_id = none) :
    reconciled host s spa now =
      (synthesizedSummary spa now,
       { g with achievements := g.achievements ++ fresh g.achievements spa.achievements },
       !(fresh g.achievements spa.achievements).isEmpty) := by
  obtain ⟨m1, m2⟩ := merge_fold_gpd true spa.achievements
    { title_info := { title_name := spa.title_name, title_id := spa.title_id,
                      last_played := now },
      title_gpd := g, ach_updated := false }
  have m3 := merge_fold_counts_always spa.achievements
    { title_info := { title_name := spa.title_name, title_id := spa.title_id,
                      last_played := now },
      title_gpd := g, ach_updated := false } (by norm_num) (by norm_num)
  simp only [reconciled, hg, hnone, Option.isNone_none]
  rw [m1, m2, m3]
  simp [synthesizedSummary]

theorem writeGpd_flag (host : Host) (s : UserProfile) (t : Nat) (k : GpdKind) (g : GpdFile) :
    (writeGpd host s t k g).1 = true ↔
      (host.size_ok s.updates.length g = true ∧ host.open_ok s.updates.length t = true ∧
        host.write_ok s.updates.length g = true) := by
  unfold writeGpd
  simp only
  split_ifs with h1 h2 h3 <;> simp_all

theorem UpdateGpd_dash_exact (host : Host) (s : UserProfile) (t : Nat) (k : GpdKind)
    (g : GpdFile) :
    (UpdateGpd host s t k g).2.dash_gpd_ =
      if (writeGpd host s t k g).1 = true then syncedDash s.dash_gpd_ t g else s.dash_gpd_ := by
  obtain ⟨w1, -⟩ := writeGpd_frame host s t k g
  obtain ⟨y1, -⟩ := syncDashboard_frame host (writeGpd host s t k g).2 t g
  unfold UpdateGpd
  simp only
  split_ifs with hw
  · rw [y1, w1]
  · exact w1

theorem SetTitleSpaData_dash_exact (host : Host) (s : UserProfile) (spa : SpaFile) (now : Nat) :
    (SetTitleSpaData host s spa now).dash_gpd_ =
      if (reconciled host s spa now).2.2 = true ∧
          host.size_ok s.updates.length (reconciled host s spa now).2.1 = true ∧
          host.open_ok s.updates.length spa.title_id = true ∧
          host.write_ok s.updates.length (reconciled host s spa now).2.1 = true then
        syncedDash (s.dash_gpd_.UpdateTitle (reconciled host s spa now).1) spa.title_id
          (reconciled host s spa now).2.1
      else s.dash_gpd_.UpdateTitle (reconciled host s spa now).1 := by
  rw [SetTitleSpaData_eq]
  simp only
  rw [UpdateGpd_dashboard_dash]
  by_cases hw : (reconciled host s spa now).2.2 = true
  · simp only [hw, if_true, true_and]
    rw [UpdateGpd_dash_exact]
    simp only [writeGpd_flag]
  · simp only [hw, if_false, false_and, Bool.false_eq_true]

/-- Claim C15, amended. Inconsistent-aggregate recovery. For every title that
has a per-title collection `g` but no summary in the dashboard collection, and
every declared catalogue, `SetTitleSpaData` synthesizes the summary
`synthesizedSummary` (title id and name of the catalogue, earned counters 0,
every declared achievement counted whether or not `g` holds it, the count and
the gamerscore sum taken modulo `2 ^ 32`), stores it in the dashboard
collection, appends to `g` only the declared achievements whose id was absent
(each id once), and then issues its `UpdateGpd` calls on that in-memory state.
The collection stored for the title afterwards is `g` with the appended
achievements. The summary found in the dashboard collection afterwards is the
synthesized one when nothing was appended, when the title is the dashboard id
or when the write of the grown collection does not complete; when something
was appended, the title is not the dashboard id and that write completes, it is
the synthesized summary with its four counters replaced by the ones derived
from the grown collection (modulo `2 ^ 32`). -/
theorem recovery_path (host : Host) (s : UserProfile) (spa : SpaFile) (now : Nat)
    (g : GpdFile) (hg : findGpd s.title_gpds_ spa.title_id = some g)
    (hnone : s.dash_gpd_.GetTitle spa.title_id = none) :
    ∃ added,
      added.Sublist spa.achievements ∧
      (∀ a ∈ added, g.GetAchievement a.id = none) ∧
      (added.map fun a => a.id).Nodup ∧
      (∀ a ∈ spa.achievements, g.GetAchievement a.id = none →
        a.id ∈ added.map fun a => a.id) ∧
      SetTitleSpaData host s spa now =
        (let grown : GpdFile := { g with achievements := g.achievements ++ added }
         let s1 : UserProfile :=
           { s with title_gpds_ := storeGpd s.title_gpds_ spa.title_id grown,
                    dash_gpd_ := s.dash_gpd_.UpdateTitle (synthesizedSummary spa now) }
         let s2 := if !added.isEmpty then
             (UpdateGpd host s1 spa.title_id GpdKind.title grown).2 else s1
         let s3 := (UpdateGpd host s2 kDashboardID GpdKind.dashboard s2.dash_gpd_).2
         { s3 with curr_gpd_ := some spa.title_id, curr_title_id_ := spa.title_id }) ∧
      findGpd (SetTitleSpaData host s spa now).title_gpds_ spa.title_id =
        some { g with achievements := g.achievements ++ added } ∧
      ((added = [] ∨ spa.title_id = kDashboardID ∨
          ¬ (host.size_ok s.updates.length { g with achievements := g.achievements ++ added }
              = true ∧
            host.open_ok s.updates.length spa.title_id = true ∧
            host.write_ok s.updates.length { g with achievements := g.achievements ++ added }
              = true)) →
        (SetTitleSpaData host s spa now).dash_gpd_.GetTitle spa.title_id =
          some (synthesizedSummary spa now)) ∧
      (added ≠ [] → spa.title_id ≠ kDashboardID →
        host.size_ok s.updates.length { g with achievements := g.achievements ++ added }
          = true →
        host.open_ok s.updates.length spa.title_id = true →
        host.write_ok s.updates.length { g with achievements := g.achievements ++ added }
          = true →
        (SetTitleSpaData host s spa now).dash_gpd_.GetTitle spa.title_id =
          some { synthesizedSummary spa now with
            achievements_possible := u32 (g.achievements ++ added).length,
            achievements_earned := u32 ((g.achievements ++ added).filter fun a => a.unlocked).length,
            gamerscore_total := u32 (gamerscoreSum (g.achievements ++ added)),
            gamerscore_earned :=
              u32 (gamerscoreSum ((g.achievements ++ added).filter fun a => a.unlocked)) }) := by
  have hrec := reconciled_recovery host s spa now g hg hnone
  have hself := GetTitle_UpdateTitle_self s.dash_gpd_ (synthesizedSummary spa now)
  have hsid : (synthesizedSummary spa now).title_id = spa.title_id := rfl
  rw [hsid] at hself
  have hdash := SetTitleSpaData_dash_exact host s spa now
  rw [hrec] at hdash
  simp only at hdash
  refine ⟨fresh g.achievements spa.achievements, fresh_sublist _ _, fresh_absent _ _,
    fresh_nodup _ _, fresh_complete _ _, ?_, ?_, ?_, ?_⟩
  · rw [SetTitleSpaData_eq, hrec]
  · rw [(SetTitleSpaData_frame host s spa now).1, findGpd_storeGpd_self, hrec]
  · intro hcase
    rw [hdash]
    split_ifs with hc
    · obtain ⟨c1, c2⟩ := hc
      rcases hcase with h | h | h
      · rw [h] at c1; simp at c1
      · rw [h, syncedDash_dashboard, ← h]; exact hself
      · exact absurd c2 h
    · exact hself
  · intro hne ht h1 h2 h3
    rw [hdash, if_pos ⟨by
      cases hf : fresh g.achievements spa.achievements with
      | nil => exact absurd hf hne
      | cons a rest => rfl, h1, h2, h3⟩]
    simp only [syncedDash, ht, if_false, hself]
    obtain ⟨e1, e2, e3, e4⟩ := tally_eq (g.achievements ++ fresh g.achievements spa.achievements)
    rw [← e1, ← e2, ← e3, ← e4]
    have := GetTitle_UpdateTitle_self (s.dash_gpd_.UpdateTitle (synthesizedSummary spa now))
      (withTally (synthesizedSummary spa now)
        (tally (g.achievements ++ fresh g.achievements spa.achievements)))
    rw [show (withTally (synthesizedSummary spa now)
        (tally (g.achievements ++ fresh g.achievements spa.achievements))).title_id =
        spa.title_id from rfl] at this
    exact this

/-- Witness for `recovery_path`: title 0x1234 has a collection holding
achievement 1 and no summary; the catalogue declares achievements 1 and 2. On
a host whose storage works the summary ends with the counters of the grown
collection; on a host that cannot open files it stays the synthesized one. -/
theorem recovery_path_witness :
    findGpd unlistedProfile.title_gpds_ spaGrow.title_id = some gpdOne ∧
    unlistedProfile.dash_gpd_.GetTitle spaGrow.title_id = none ∧
    synthesizedSummary spaGrow 7 =
      { title_id := 0x1234, achievements_possible := 2, gamerscore_total := 15,
        last_played := 7 } ∧
    (∃ added,
      added.Sublist spaGrow.achievements ∧
      (∀ a ∈ added, gpdOne.GetAchievement a.id = none) ∧
      (added.map fun a => a.id).Nodup ∧
      (∀ a ∈ spaGrow.achievements, gpdOne.GetAchievement a.id = none →
        a.id ∈ added.map fun a => a.id) ∧
      findGpd (SetTitleSpaData okHost unlistedProfile spaGrow 7).title_gpds_ spaGrow.title_id =
        some { gpdOne with achievements := gpdOne.achievements ++ added }) ∧
    (SetTitleSpaData readOnlyHost unlistedProfile spaGrow 7).dash_gpd_.GetTitle
        spaGrow.title_id = some (synthesizedSummary spaGrow 7) ∧
    (SetTitleSpaData okHost unlistedProfile spaGrow 7).dash_gpd_.GetTitle spaGrow.title_id =
      some { title_id := 0x1234, achievements_possible := 2, achievements_earned := 1,
             gamerscore_total := 15, gamerscore_earned := 10, last_played := 7 } := by
  obtain ⟨added, a1, a2, a3, a4, -, a6, -, -⟩ :=
    recovery_path okHost unlistedProfile spaGrow 7 gpdOne rfl rfl
  obtain ⟨added2, -, -, -, -, -, -, b7, -⟩ :=
    recovery_path readOnlyHost unlistedProfile spaGrow 7 gpdOne rfl rfl
  refine ⟨rfl, rfl, by decide, ⟨added, a1, a2, a3, a4, a6⟩, ?_, by decide⟩
  apply b7
  right; right
  intro h
  have := h.2.1
  simp [readOnlyHost] at this

/-- Counterexample to C15 as stated. Title 0x1234 has the collection `gpdOne`
(achievement 1, unlocked, 10 G) and no summary; the catalogue declares
achievements 1 and 2 and the storage works. The summary left in the dashboard
collection has `achievements_earned = 1` and `gamerscore_earned = 10`, not the
earned counters 0 of the synthesized summary: the write of the grown
collection recomputes it. With the catalogue `spaOverflow`, whose gamerscore
values add up to `2 ^ 32`, and no storage, the synthesized summary is kept and
holds `gamerscore_total = 0`, not the sum. -/
theorem recovery_path_counterexample :
    findGpd unlistedProfile.title_gpds_ spaGrow.title_id = some gpdOne ∧
    unlistedProfile.dash_gpd_.GetTitle spaGrow.title_id = none ∧
    ((SetTitleSpaData okHost unlistedProfile spaGrow 7).dash_gpd_.GetTitle
        spaGrow.title_id).map (fun ti => (ti.achievements_earned, ti.gamerscore_earned))
      = some (1, 10) ∧
    gamerscoreSum spaOverflow.achievements = 2 ^ 32 ∧
    ((SetTitleSpaData readOnlyHost unlistedProfile spaOverflow 7).dash_gpd_.GetTitle
        spaOverflow.title_id).map (fun ti => ti.gamerscore_total) = some 0 := by
  decide

/-! ### Settings -/

/-- Claim C12. `AddSettingIfNotExist` is add-if-absent and idempotent. If the
dashboard collection already holds a setting with the id, the call returns
`false` and leaves the profile and the setting as they were. Otherwise a
binary-typed setting with an empty payload first has its payload resized to
`XPROFILEID_SIZE(id)` bytes, the (possibly resized) setting is appended to the
settings of the dashboard collection and is what a lookup of its id yields,
and the call returns `true`. A second call for any setting with the same id
then leaves the dashboard collection as the first call left it. -/
theorem add_setting_if_absent (XPROFILEID_SIZE : Nat → Nat) (s : UserProfile)
    (setting setting2 : Setting) :
    ((s.dash_gpd_.GetSetting setting.id).isSome = true →
      AddSettingIfNotExist XPROFILEID_SIZE s setting = (false, s, setting)) ∧
    (s.dash_gpd_.GetSetting setting.id = none →
      ∃ stored,
        stored = (if setting.value_type = X_XUSER_DATA_TYPE.kBinary ∧
            setting.extraData.length = 0 then
          { setting with extraData := List.replicate (XPROFILEID_SIZE setting.id) 0 }
          else setting) ∧
        AddSettingIfNotExist XPROFILEID_SIZE s setting =
          (true,
           { s with dash_gpd_ :=
              { s.dash_gpd_ with settings := s.dash_gpd_.settings ++ [stored] } },
           stored) ∧
        (AddSettingIfNotExist XPROFILEID_SIZE s setting).2.1.dash_gpd_.GetSetting setting.id =
          some stored) ∧
    (setting2.id = setting.id →
      (AddSettingIfNotExist XPROFILEID_SIZE
          (AddSettingIfNotExist XPROFILEID_SIZE s setting).2.1 setting2).1 = false ∧
      (AddSettingIfNotExist XPROFILEID_SIZE
          (AddSettingIfNotExist XPROFILEID_SIZE s setting).2.1 setting2).2.1 =
        (AddSettingIfNotExist XPROFILEID_SIZE s setting).2.1) := by
  have hid : ∀ x : Setting, (if x.value_type = X_XUSER_DATA_TYPE.kBinary ∧
      x.extraData.length = 0 then
      { x with extraData := List.replicate (XPROFILEID_SIZE x.id) 0 } else x).id = x.id := by
    intro x
    split_ifs <;> rfl
  have habsent : s.dash_gpd_.GetSetting setting.id = none →
      AddSettingIfNotExist XPROFILEID_SIZE s setting =
        (true,
         { s with dash_gpd_ := { s.dash_gpd_ with settings := s.dash_gpd_.settings ++
            [if setting.value_type = X_XUSER_DATA_TYPE.kBinary ∧
                setting.extraData.length = 0 then
              { setting with extraData := List.replicate (XPROFILEID_SIZE setting.id) 0 }
              else setting] } },
         if setting.value_type = X_XUSER_DATA_TYPE.kBinary ∧
            setting.extraData.length = 0 then
          { setting with extraData := List.replicate (XPROFILEID_SIZE setting.id) 0 }
          else setting) := by
    intro hnone
    have hfind : s.dash_gpd_.settings.find? (fun x => x.id == setting.id) = none := hnone
    simp only [AddSettingIfNotExist, hnone, Option.isSome_none, Bool.false_eq_true, if_false,
      GpdFile.UpdateSetting, hid]
    rw [upsert_of_find_none _ _ _ hfind]
  have hpresent : ∀ (s0 : UserProfile) (x : Setting),
      (s0.dash_gpd_.GetSetting x.id).isSome = true →
      AddSettingIfNotExist XPROFILEID_SIZE s0 x = (false, s0, x) := by
    intro s0 x h
    simp only [AddSettingIfNotExist, h, if_true]
  have hlookup : s.dash_gpd_.GetSetting setting.id = none →
      (AddSettingIfNotExist XPROFILEID_SIZE s setting).2.1.dash_gpd_.GetSetting setting.id =
        some (if setting.value_type = X_XUSER_DATA_TYPE.kBinary ∧
            setting.extraData.length = 0 then
          { setting with extraData := List.replicate (XPROFILEID_SIZE setting.id) 0 }
          else setting) := by
    intro hnone
    have hfind : s.dash_gpd_.settings.find? (fun x => x.id == setting.id) = none := hnone
    rw [habsent hnone]
    simp only [GpdFile.GetSetting, List.find?_append, hfind, Option.none_or, List.find?, hid,
      beq_self_eq_true]
  refine ⟨hpresent s setting, fun hnone => ⟨_, rfl, habsent hnone, hlookup hnone⟩, ?_⟩
  intro h2
  have hsome : ((AddSettingIfNotExist XPROFILEID_SIZE s setting).2.1.dash_gpd_.GetSetting
      setting2.id).isSome = true := by
    rw [h2]
    cases hget : s.dash_gpd_.GetSetting setting.id with
    | none => rw [hlookup hget]; rfl
    | some x =>
      rw [hpresent s setting (by rw [hget]; rfl), hget]; rfl
  rw [hpresent _ setting2 hsome]
  exact ⟨rfl, rfl⟩

/-- Witness for `add_setting_if_absent`: a binary setting of declared width 8
added without payload to a blank profile, twice. -/
theorem add_setting_if_absent_witness :
    blankProfile.dash_gpd_.GetSetting binarySetting.id = none ∧
    demoProfileIdSize binarySetting.id = 8 ∧
    (∃ stored,
      stored = (if binarySetting.value_type = X_XUSER_DATA_TYPE.kBinary ∧
          binarySetting.extraData.length = 0 then
        { binarySetting with
          extraData := List.replicate (demoProfileIdSize binarySetting.id) 0 }
        else binarySetting) ∧
      AddSettingIfNotExist demoProfileIdSize blankProfile binarySetting =
        (true,
         { blankProfile with dash_gpd_ :=
            { blankProfile.dash_gpd_ with
              settings := blankProfile.dash_gpd_.settings ++ [stored] } },
         stored) ∧
      (AddSettingIfNotExist demoProfileIdSize blankProfile binarySetting).2.1.dash_gpd_.GetSetting
          binarySetting.id = some stored) ∧
    (AddSettingIfNotExist demoProfileIdSize
        (AddSettingIfNotExist demoProfileIdSize blankProfile binarySetting).2.1
        binarySetting).2.1 =
      (AddSettingIfNotExist demoProfileIdSize blankProfile binarySetting).2.1 :=
  ⟨rfl, by decide,
   (add_setting_if_absent demoProfileIdSize blankProfile binarySetting binarySetting).2.1 rfl,
   ((add_setting_if_absent demoProfileIdSize blankProfile binarySetting binarySetting).2.2
      rfl).2⟩

/-! ### Loading -/

theorem loadTitle_find (disk : Disk) (s : UserProfile) (title : TitlePlayed) (t : Nat) :
    findGpd (loadTitle disk s title).title_gpds_ t =
      if title.title_id = t ∧ (loadedGpd disk t).isSome = true then loadedGpd disk t
      else findGpd s.title_gpds_ t := by
  by_cases ht : title.title_id = t
  · subst ht
    unfold loadTitle loadedGpd
    cases disk.gpd_file title.title_id with
    | none => simp
    | some data =>
      simp only
      by_cases hr : (disk.gpd_read { title_id := title.title_id } data).1 = true
      · simp [hr, findGpd_storeGpd_self]
      · simp [hr]
  · simp only [ht, false_and, if_false]
    unfold loadTitle
    cases disk.gpd_file title.title_id with
    | none => rfl
    | some data =>
      simp only
      split_ifs
      · exact findGpd_storeGpd_other _ _ _ _ ht
      · rfl

theorem loadTitle_fold_find (disk : Disk) (l : List TitlePlayed) (s : UserProfile) (t : Nat) :
    findGpd (l.foldl (loadTitle disk) s).title_gpds_ t =
      if (l.any fun ti => ti.title_id == t) = true ∧ (loadedGpd disk t).isSome = true then
        loadedGpd disk t
      else findGpd s.title_gpds_ t := by
  induction l generalizing s with
  | nil => simp
  | cons a rest ih =>
    rw [List.foldl_cons, ih, loadTitle_find]
    by_cases hl : (loadedGpd disk t).isSome = true
    · by_cases ha : a.title_id = t
      · simp [hl, ha]
      · simp [hl, ha]
    · simp [hl]

/-- Claim C13. Partial-load tolerance. For every profile directory whose
dashboard file opens, constructing the profile (which runs `LoadProfile`)
yields a profile whose dashboard collection is the one read from that file
and whose title map holds, for every title id `t`, the collection parsed from
the file of `t` when `t` is listed in the dashboard collection and its file
both opens and parses, and nothing otherwise: a title whose file is missing or
fails to parse is skipped and does not affect the others. -/
theorem partial_load (cu : CryptoUtils) (lay : AccountLayout) (disk : Disk)
    (raw tmp data : List Nat) (t : Nat)
    (hdash : disk.gpd_file kDashboardID = some data) :
    (UserProfile_ctor cu lay disk raw tmp).dash_gpd_ =
      (disk.gpd_read { title_id := kDashboardID } data).2 ∧
    findGpd (UserProfile_ctor cu lay disk raw tmp).title_gpds_ t =
      if ((disk.gpd_read { title_id := kDashboardID } data).2.titles.any
          fun ti => ti.title_id == t) = true then
        loadedGpd disk t
      else none := by
  obtain ⟨a1, a2, -, -⟩ := loadAccount_frame cu lay disk tmp
    { account_ := placeholderAccount lay raw, dash_gpd_ := { title_id := kDashboardID } }
  unfold UserProfile_ctor LoadProfile
  generalize loadAccount cu lay disk tmp
    { account_ := placeholderAccount lay raw, dash_gpd_ := { title_id := kDashboardID } } = s0
    at a1 a2
  simp only at a1 a2
  unfold loadGpds
  simp only [hdash, a1]
  refine ⟨(loadTitle_fold_frame disk _ _).2.1, ?_⟩
  rw [loadTitle_fold_find]
  simp only [GpdFile.GetTitles, a2, findGpd, List.find?_nil, Option.map_none']
  by_cases hany : ((disk.gpd_read { title_id := kDashboardID } data).2.titles.any
      fun ti => ti.title_id == t) = true
  · simp only [hany, true_and, if_true]
    cases hl : loadedGpd disk t <;> simp
  · simp only [hany, false_and, if_false, Bool.false_eq_true]

/-- Witness for `partial_load`: three titles listed, the file of title 2
corrupted; titles 1 and 3 are loaded, title 2 and the unlisted title 4 are
not. -/
theorem partial_load_witness :
    demoDisk.gpd_file kDashboardID = some [kDashboardID] ∧
    (UserProfile_ctor demoUtils xamLayout demoDisk [] []).dash_gpd_ = demoDash ∧
    findGpd (UserProfile_ctor demoUtils xamLayout demoDisk [] []).title_gpds_ 1 =
      some { title_id := 1, achievements := [{ id := 1, gamerscore := 10 }] } ∧
    findGpd (UserProfile_ctor demoUtils xamLayout demoDisk [] []).title_gpds_ 2 = none ∧
    findGpd (UserProfile_ctor demoUtils xamLayout demoDisk [] []).title_gpds_ 3 =
      some { title_id := 3, achievements := [{ id := 1, gamerscore := 10 }] } ∧
    findGpd (UserProfile_ctor demoUtils xamLayout demoDisk [] []).title_gpds_ 4 = none :=
  ⟨rfl,
   (partial_load demoUtils xamLayout demoDisk [] [] [kDashboardID] 1 rfl).1,
   (partial_load demoUtils xamLayout demoDisk [] [] [kDashboardID] 1 rfl).2,
   (partial_load demoUtils xamLayout demoDisk [] [] [kDashboardID] 2 rfl).2,
   (partial_load demoUtils xamLayout demoDisk [] [] [kDashboardID] 3 rfl).2,
   (partial_load demoUtils xamLayout demoDisk [] [] [kDashboardID] 4 rfl).2⟩

/-! ### Credential fallback -/

theorem DecryptAccountFile_fail (cu : CryptoUtils) (lay : AccountLayout)
    (data output : List Nat) (devkit : Bool)
    (h : (DecryptAccountFile cu lay data output devkit).1 = false) :
    (DecryptAccountFile cu lay data output devkit).2 = output := by
  unfold DecryptAccountFile at h ⊢
  cases hk : cu.GetXeKey 0x19 devkit with
  | none => rfl
  | some key =>
    simp only [hk] at h ⊢
    split_ifs at h ⊢ with hc
    rfl

theorem bytesLE_length (w v : Nat) : (bytesLE w v).length = w := by
  induction w generalizing v with
  | zero => rfl
  | succ n ih => simp [bytesLE, ih]

theorem valueLE_bytesLE (w v : Nat) : valueLE (bytesLE w v) = v % 256 ^ w := by
  induction w generalizing v with
  | zero => simp [bytesLE, valueLE, Nat.mod_one]
  | succ n ih =>
    have h := ih (v / 256)
    simp only [valueLE] at h
    simp only [bytesLE, valueLE, List.foldr_cons, h]
    rw [pow_succ', Nat.mod_mul]

theorem drop_writeAt_self (off : Nat) (bytes buf : List Nat) (h : off ≤ buf.length) :
    (writeAt off bytes buf).drop off = bytes ++ buf.drop (off + bytes.length) := by
  unfold writeAt
  rw [List.append_assoc]
  exact List.drop_left' (by simp [List.length_take, h])

theorem drop_writeAt_of_le (off k : Nat) (bytes buf : List Nat)
    (h1 : off + bytes.length ≤ k) (h2 : off ≤ buf.length) :
    (writeAt off bytes buf).drop k = buf.drop k := by
  have hk : k = off + (bytes.length + (k - off - bytes.length)) := by omega
  rw [hk, ← List.drop_drop, drop_writeAt_self off bytes buf h2, ← List.drop_drop,
    List.drop_left, List.drop_drop]
  congr 1
  omega

theorem writeAt_length (off : Nat) (bytes buf : List Nat)
    (h : off + bytes.length ≤ buf.length) : (writeAt off bytes buf).length = buf.length := by
  simp only [writeAt, List.length_append, List.length_take, List.length_drop]
  omega

theorem wchars_bytesLE (w n c : Nat) (rest : List Nat) :
    wchars w (n + 1) (bytesLE w c ++ rest) = c % 256 ^ w :: wchars w n rest := by
  simp only [wchars]
  rw [List.take_left' (bytesLE_length w c), List.drop_left' (bytesLE_length w c),
    valueLE_bytesLE]

theorem mod_pow_of_byte (w c : Nat) (hw : 0 < w) (hc : c < 256) : c % 256 ^ w = c := by
  apply Nat.mod_eq_of_lt
  calc c < 256 := hc
    _ = 256 ^ 1 := by norm_num
    _ ≤ 256 ^ w := Nat.pow_le_pow_right (by norm_num) hw

theorem placeholder_fields (lay : AccountLayout) (raw : List Nat)
    (hw : 0 < lay.wchar_size)
    (hgt : lay.gamertag_offset + 0x10 * lay.wchar_size ≤ lay.xuid_offset)
    (hx : lay.xuid_offset + 8 ≤ raw.length) :
    xuid_online lay (placeholderAccount lay raw) = 0xE000BABEBABEBABE ∧
    GetGamertagString lay (placeholderAccount lay raw) = kXeniaUser := by
  have hxlen : ((bytesLE 8 0xE000BABEBABEBABE).reverse).length = 8 := by
    simp [bytesLE_length]
  have hglen : (((kXeniaUser ++ [0]).map (bytesLE lay.wchar_size)).flatten).length =
      10 * lay.wchar_size := by
    simp [kXeniaUser, bytesLE_length]
    omega
  have hAlen : (writeAt lay.xuid_offset (bytesLE 8 0xE000BABEBABEBABE).reverse raw).length =
      raw.length := writeAt_length _ _ _ (by rw [hxlen]; exact hx)
  constructor
  · unfold xuid_online placeholderAccount
    rw [drop_writeAt_of_le _ _ _ _ (by rw [hglen]; omega) (by rw [hAlen]; omega),
      drop_writeAt_self _ _ _ (by omega), List.take_left' hxlen, List.reverse_reverse,
      valueLE_bytesLE]
    norm_num
  · have hPlen : (placeholderAccount lay raw).length = raw.length := by
      unfold placeholderAccount
      rw [writeAt_length _ _ _ (by rw [hglen, hAlen]; omega), hAlen]
    obtain ⟨m, hm⟩ : ∃ m, ((placeholderAccount lay raw).length - lay.gamertag_offset) /
        lay.wchar_size = m + 10 := by
      have h10 : 10 ≤ ((placeholderAccount lay raw).length - lay.gamertag_offset) /
          lay.wchar_size := by
        rw [Nat.le_div_iff_mul_le hw, hPlen]
        omega
      exact ⟨_, (Nat.sub_add_cancel h10).symm⟩
    unfold GetGamertagString
    rw [hm]
    unfold placeholderAccount
    rw [drop_writeAt_self _ _ _ (by rw [hAlen]; omega)]
    simp only [kXeniaUser, List.cons_append, List.nil_append, List.map_cons, List.map_nil,
      List.flatten_cons, List.flatten_nil, List.append_assoc, List.append_nil]
    simp only [wchars_bytesLE]
    rw [mod_pow_of_byte _ 0x58 hw (by norm_num), mod_pow_of_byte _ 0x65 hw (by norm_num),
      mod_pow_of_byte _ 0x6E hw (by norm_num), mod_pow_of_byte _ 0x69 hw (by norm_num),
      mod_pow_of_byte _ 0x61 hw (by norm_num), mod_pow_of_byte _ 0x55 hw (by norm_num),
      mod_pow_of_byte _ 0x73 hw (by norm_num), mod_pow_of_byte _ 0x72 hw (by norm_num),
      mod_pow_of_byte _ 0 hw (by norm_num)]
    simp [List.takeWhile]

/-- Claim C16. Credential fallback order. After construction (which runs
`LoadProfile`) the stored account is: the placeholder record when there is no
account file; otherwise the record unsealed with the standard root secret when
that succeeds; otherwise the record unsealed with the devkit variant when that
succeeds; otherwise the placeholder record. The devkit result is used only in
the branch where the standard unseal failed. In the placeholder record (for a
layout with the gamertag before `xuid_online`) `xuid_online` reads
`0xE000BABEBABEBABE` and the gamertag reads "XeniaUser". -/
theorem credential_fallback (cu : CryptoUtils) (lay : AccountLayout) (disk : Disk)
    (raw tmp : List Nat) :
    (UserProfile_ctor cu lay disk raw tmp).account_ =
      (match disk.account_file with
        | none => placeholderAccount lay raw
        | some data =>
          if (DecryptAccountFile cu lay data tmp false).1 = true then
            (DecryptAccountFile cu lay data tmp false).2
          else if (DecryptAccountFile cu lay data tmp true).1 = true then
            (DecryptAccountFile cu lay data tmp true).2
          else placeholderAccount lay raw) ∧
    (0 < lay.wchar_size → lay.gamertag_offset + 0x10 * lay.wchar_size ≤ lay.xuid_offset →
      lay.xuid_offset + 8 ≤ raw.length →
      xuid_online lay (placeholderAccount lay raw) = 0xE000BABEBABEBABE ∧
      GetGamertagString lay (placeholderAccount lay raw) = kXeniaUser) := by
  refine ⟨?_, placeholder_fields lay raw⟩
  unfold UserProfile_ctor LoadProfile
  rw [(loadGpds_frame disk _).1]
  unfold loadAccount
  cases disk.account_file with
  | none => rfl
  | some data =>
    simp only
    by_cases h1 : (DecryptAccountFile cu lay data tmp false).1 = true
    · simp [h1]
    · have h1f : (DecryptAccountFile cu lay data tmp false).1 = false := by
        simpa using h1
      rw [DecryptAccountFile_fail cu lay data tmp false h1f]
      by_cases h2 : (DecryptAccountFile cu lay data tmp true).1 = true
      · simp [h1f, h2]
      · have h2f : (DecryptAccountFile cu lay data tmp true).1 = false := by
          simpa using h2
        simp [h1f, h2f]

set_option maxRecDepth 1000000 in
/-- Witness for `credential_fallback`: an account file sealed with the devkit
key (the standard unseal fails, the devkit unseal yields the all-zero record),
and a directory without account file (the placeholder record). -/
theorem credential_fallback_witness :
    (DecryptAccountFile demoUtils xamLayout
      (EncryptAccountFile demoUtils xamLayout (List.replicate 0x17C 0) [] true) [] false).1
      = false ∧
    (UserProfile_ctor demoUtils xamLayout devkitDisk (List.replicate 0x17C 0) []).account_ =
      List.replicate 0x17C 0 ∧
    (UserProfile_ctor demoUtils xamLayout demoDisk (List.replicate 0x17C 0) []).account_ =
      placeholderAccount xamLayout (List.replicate 0x17C 0) ∧
    xuid_online xamLayout (placeholderAccount xamLayout (List.replicate 0x17C 0)) =
      0xE000BABEBABEBABE ∧
    GetGamertagString xamLayout (placeholderAccount xamLayout (List.replicate 0x17C 0)) =
      kXeniaUser :=
  ⟨by decide,
   (credential_fallback demoUtils xamLayout devkitDisk (List.replicate 0x17C 0) []).1.trans
     (by decide),
   (credential_fallback demoUtils xamLayout demoDisk (List.replicate 0x17C 0) []).1,
   (credential_fallback demoUtils xamLayout demoDisk (List.replicate 0x17C 0) []).2
     (by decide) (by decide) (by decide)⟩

end Xenia
